import Mathlib

/-!
# Marketplace stock-reconciliation subsystem: embedding and verification

Shallow embedding of the stock-synchronization core of the repository
(the `PUT` handler of the Mercado Libre stock route, together with the
order-import stock helper `updateLocalStock` and the data model used by
both), with theorems checking the natural-language specification against it.

Conventions of the embedding:
* TypeScript numbers holding quantities are modelled as `Int` (the source
  subtracts and compares them; nothing clamps them at zero).
* Nullable / optional fields are `Option`; JavaScript truthiness on strings
  (`if (x)`) is `x` being present and nonempty.
* Supabase store writes never throw in the source (errors are returned as
  data and ignored by this handler), so store updates are pure state
  updates.  The only throw sites inside the per-unit loops are the
  marketplace client calls, modelled by an oracle in `Env`.
* The handler loads all listings (joined with their product variant) once,
  up front, and never re-reads the store during the run; the embedding
  therefore folds over a snapshot `loadListings s` while threading the
  mutable store.
-/

namespace MuyCriollo

/-- A Mercado Libre variation (`MLVariation` in `src/lib/mercadolibre`):
its id is a number, its seller custom field is optional. -/
structure MLVariation where
  id : Nat
  available_quantity : Int
  seller_custom_field : Option String
deriving DecidableEq, Repr

/-- A Mercado Libre item (`MLItem`): item-level available quantity plus an
optional list of variations. -/
structure MLItem where
  id : String
  available_quantity : Int
  variations : Option (List MLVariation)
deriving DecidableEq, Repr

/-- A row of `product_variants` as selected by the sync handler:
id, stock and nullable sku. -/
structure ProductVariant where
  id : String
  stock_quantity : Int
  sku : Option String
deriving DecidableEq, Repr

/-- A row of `platform_listings`: the Listing Link binding a product
variant to a remote (item, variation) coordinate. -/
structure ListingRow where
  id : String
  product_variant_id : String
  platform : String
  external_id : Option String
  external_variant_id : Option String
  stock_synced : Int
  last_sync_at : Option Nat
deriving DecidableEq, Repr

/-- A row of `stock_movements` as inserted by the code paths under study. -/
structure StockMovement where
  product_variant_id : String
  movement_type : String
  quantity : Int
  reference_type : String
  notes : String
deriving DecidableEq, Repr

/-- The local database state touched by the sync run. -/
structure Store where
  variants : List ProductVariant
  listings : List ListingRow
  movements : List StockMovement
deriving DecidableEq, Repr

/-- A remote write issued by the push branch: either the item-level
endpoint (`updateItemStock`, `PUT /items/{id}`) or the variation-level
endpoint (`PUT /items/{id}/variations/{vid}`). -/
inductive RemoteWrite
  | item (itemId : String) (qty : Int)
  | variation (itemId : String) (varId : String) (qty : Int)
deriving DecidableEq, Repr

/-- The run environment: the remote marketplace state (read by the pull
branch), the outcome oracle for remote write calls (`none` = the call
succeeds, `some msg` = the call throws with message `msg`), the outcome of
the batched item fetch used by the pull branch, and the current time. -/
structure Env where
  remote : List MLItem
  writeResult : String → Option String → Int → Option String
  batchFail : Option String
  now : Nat

/-- JavaScript truthiness of a nullable string field. -/
def truthy : Option String → Bool
  | none => false
  | some s => !(s == "")

/-- JavaScript `s.includes(pat)` on strings: `pat` occurs as a contiguous substring. -/
def strIncludes (s pat : String) : Bool :=
  s.data.tails.any (fun t => pat.data.isPrefixOf t)

/-- Modelled from the spec: `getItemsMulti` is imported from the
marketplace client library, whose definition is not part of the source
snapshot; per the spec the batched `getRemoteItems(ids)` call returns the
remote items for the requested ids and the pull branch then looks each
listing's `external_id` up in the resulting map (`mlItemMap.get`). -/
def remoteLookup (env : Env) (itemId : String) : Option MLItem :=
  env.remote.find? (fun it => it.id == itemId)

/-- The variation list of an item as traversed by the handler
(`mlItem.variations` with `undefined` treated as absent). -/
def varList (it : MLItem) : List MLVariation :=
  it.variations.getD []

/-- The self-healing SKU recovery of the pull branch: strategy 1 is exact
equality of a variation's `seller_custom_field` with the local sku,
strategy 2 is the local sku containing the variation's id as a substring.
A falsy local sku matches nothing. -/
def recoverVariation (sku : Option String) (vs : List MLVariation) : Option MLVariation :=
  match sku with
  | none => none
  | some s =>
    if s == "" then none
    else
      match vs.find? (fun v => v.seller_custom_field == some s) with
      | some v => some v
      | none => vs.find? (fun v => strIncludes s (toString v.id))

/-- A listing joined with its product variant, as loaded by the handler's
initial select. -/
structure LoadedListing where
  row : ListingRow
  product_variant : Option ProductVariant
deriving DecidableEq, Repr

/-- The join performed by the initial select. -/
def joinListing (s : Store) (r : ListingRow) : LoadedListing :=
  { row := r
    product_variant := s.variants.find? (fun v => v.id == r.product_variant_id) }

/-- The platform-filtered listing rows of the initial select. -/
def mlRows (s : Store) : List ListingRow :=
  s.listings.filter (fun r => r.platform == "mercadolibre")

/-- All candidate listings of a run, joined with their variants. -/
def loadListings (s : Store) : List LoadedListing :=
  (mlRows s).map (joinListing s)

/-- Outcome of the pull branch's identity resolution for one listing. -/
inductive Resolution
  | skip
  | ambiguous (msg : String)
  | resolved (pv : ProductVariant) (mlStock : Int) (heal : Option String)
deriving DecidableEq, Repr

/-- Resolution when `external_variant_id` is already set (truthy): direct
lookup by id equality; fall back to item-level quantity when the item
reports no variations; otherwise skip (with no error pushed). -/
def resolveSet (pv : ProductVariant) (it : MLItem) (evid : String) : Resolution :=
  match (varList it).find? (fun v => toString v.id == evid) with
  | some v => .resolved pv v.available_quantity none
  | none =>
    if (varList it).length == 0 then .resolved pv it.available_quantity none
    else .skip

/-- Resolution when `external_variant_id` is falsy: if the item has
variations, attempt SKU recovery (recording the discovered id), else use
the item-level quantity. -/
def resolveUnset (eid : String) (pv : ProductVariant) (it : MLItem) : Resolution :=
  if (varList it).length > 0 then
    match recoverVariation pv.sku (varList it) with
    | some v => .resolved pv v.available_quantity (some (toString v.id))
    | none => .ambiguous ("Saltado " ++ eid ++ ": Requiere vinculación manual de variante")
  else .resolved pv it.available_quantity none

/-- Full per-listing resolution of the pull branch, mirroring the guard
order of the source: malformed link → silent skip; remote item not in the
batch → silent skip; then the set/unset variation cases. -/
def resolvePull (env : Env) (l : LoadedListing) : Resolution :=
  match l.product_variant with
  | none => .skip
  | some pv =>
    match l.row.external_id with
    | none => .skip
    | some eid =>
      if eid == "" then .skip
      else
        match remoteLookup env eid with
        | none => .skip
        | some it =>
          match l.row.external_variant_id with
          | some evid =>
            if evid == "" then resolveUnset eid pv it else resolveSet pv it evid
          | none => resolveUnset eid pv it

/-- Supabase `update ... eq('id', rid)` on `platform_listings`: every row whose id
matches is rewritten. -/
def updRows (rows : List ListingRow) (rid : String) (f : ListingRow → ListingRow) :
    List ListingRow :=
  rows.map (fun r => if r.id == rid then f r else r)

/-- Supabase update of `stock_quantity` by id on `product_variants`. -/
def updVariantStock (vs : List ProductVariant) (vid : String) (q : Int) :
    List ProductVariant :=
  vs.map (fun v => if v.id == vid then { v with stock_quantity := q } else v)

/-- The stock movement inserted by the pull branch when it overwrites the
local quantity: `IN`/`OUT` by comparison, quantity `Math.abs(new - old)`,
reference type `sync`. -/
def syncMovement (pvId : String) (oldQ newQ : Int) : StockMovement :=
  { product_variant_id := pvId
    movement_type := if newQ > oldQ then "IN" else "OUT"
    quantity := |newQ - oldQ|
    reference_type := "sync"
    notes := "Sincronización manual desde Mercado Libre" }

/-- Mutable state threaded through a run: the store plus the `synced`
counter, the `errors` accumulator and the trace of successful remote
writes. -/
structure RunState where
  store : Store
  synced : Nat
  errors : List String
  writes : List RemoteWrite
deriving DecidableEq, Repr

/-- One iteration of the pull loop. -/
def pullStep (env : Env) (st : RunState) (l : LoadedListing) : RunState :=
  match resolvePull env l with
  | .skip => st
  | .ambiguous msg => { st with errors := st.errors ++ [msg] }
  | .resolved pv mlStock heal =>
    let store1 :=
      match heal with
      | some vid =>
        { st.store with
            listings := updRows st.store.listings l.row.id
              (fun r => { r with external_variant_id := some vid }) }
      | none => st.store
    if mlStock == pv.stock_quantity then { st with store := store1 }
    else
      { st with
          store :=
            { store1 with
                variants := updVariantStock store1.variants pv.id mlStock
                movements := store1.movements ++ [syncMovement pv.id pv.stock_quantity mlStock]
                listings := updRows store1.listings l.row.id
                  (fun r => { r with stock_synced := mlStock, last_sync_at := some env.now }) }
          synced := st.synced + 1 }

/-- The remote coordinate used by the push branch: the variation endpoint
when `external_variant_id` is truthy, the item endpoint otherwise. -/
def pushCoord (l : LoadedListing) : Option String :=
  match l.row.external_variant_id with
  | some v => if v == "" then none else some v
  | none => none

/-- One iteration of the push loop. -/
def pushStep (env : Env) (st : RunState) (l : LoadedListing) : RunState :=
  match l.product_variant with
  | none => st
  | some pv =>
    match l.row.external_id with
    | none => st
    | some eid =>
      if eid == "" then st
      else
        let localStock := pv.stock_quantity
        if localStock == l.row.stock_synced then st
        else
          match env.writeResult eid (pushCoord l) localStock with
          | some msg => { st with errors := st.errors ++ ["Item " ++ eid ++ ": " ++ msg] }
          | none =>
            { st with
                writes := st.writes ++
                  [match pushCoord l with
                   | some varId => RemoteWrite.variation eid varId localStock
                   | none => RemoteWrite.item eid localStock]
                store :=
                  { st.store with
                      listings := updRows st.store.listings l.row.id
                        (fun r => { r with stock_synced := localStock,
                                           last_sync_at := some env.now }) }
                synced := st.synced + 1 }

/-- Initial run state over a store. -/
def initState (s : Store) : RunState :=
  { store := s, synced := 0, errors := [], writes := [] }

/-- Decoding of `body.direction || 'push'`: absent or falsy gives `"push"`. -/
def decodeDirection : Option String → String
  | some d => if d == "" then "push" else d
  | none => "push"

/-- The transient per-run result returned to the caller.  `errors` is
`none` when the accumulator is empty (the source returns `undefined`,
which is dropped from the JSON body). -/
structure SyncReport where
  success : Bool
  synced : Nat
  total : Nat
  direction : String
  errors : Option (List String)
deriving DecidableEq, Repr

/-- The full push pass. -/
def runPush (env : Env) (s : Store) : RunState :=
  (loadListings s).foldl (pushStep env) (initState s)

/-- The full pull pass. -/
def runPull (env : Env) (s : Store) : RunState :=
  (loadListings s).foldl (pullStep env) (initState s)

/-- The response assembled at the end of the handler. -/
def mkReport (direction : String) (total : Nat) (st : RunState) : SyncReport :=
  { success := true
    synced := st.synced
    total := total
    direction := direction
    errors := if st.errors.length > 0 then some st.errors else none }

/-- The `PUT` sync handler: decode the direction, run the matching pass
over all listings, return the report.  In the pull direction the batched
remote-item fetch precedes the loop; if it throws, the outer catch turns
the whole run into a fatal error response. -/
def runSync (env : Env) (bodyDirection : Option String) (s : Store) :
    Except String (RunState × SyncReport) :=
  let direction := decodeDirection bodyDirection
  if direction == "push" then
    let st := runPush env s
    .ok (st, mkReport direction (loadListings s).length st)
  else
    match env.batchFail with
    | some _ => .error "Error sincronizando stock"
    | none =>
      let st := runPull env s
      .ok (st, mkReport direction (loadListings s).length st)

/-- The order-import stock helper of the webhook route: decrement the
variant's stock by the sold quantity and insert a `sale` movement whose
quantity is the (negative) signed delta. -/
def updateLocalStock (s : Store) (variantId : String) (quantity : Int)
    (saleNumber : String) : Store :=
  if variantId == "" then s
  else
    match s.variants.find? (fun v => v.id == variantId) with
    | none => s
    | some v =>
      { s with
          variants := updVariantStock s.variants variantId (v.stock_quantity - quantity)
          movements := s.movements ++
            [{ product_variant_id := variantId
               movement_type := "OUT"
               quantity := -quantity
               reference_type := "sale"
               notes := "Venta ML #" ++ saleNumber }] }

/-- The abstract signed delta of a stored movement row: the direction is
carried by `movement_type` and the magnitude by `quantity`.  This is the
uniform reading of the two fields that agrees with every writer of
`stock_movements` in the repository: the sale and adjustment paths store a
signed `quantity` (negative for `OUT`), the pull-sync path stores
`Math.abs` with the direction in `movement_type`; taking the sign from
`movement_type` and the magnitude from `|quantity|` reconciles both. -/
def signedDelta (m : StockMovement) : Int :=
  if m.movement_type == "OUT" then -((m.quantity.natAbs : Int))
  else ((m.quantity.natAbs : Int))

/-- The reconstructed quantity change of one unit from its ledger:
the sum of the signed deltas of its movements. -/
def ledgerSum (ms : List StockMovement) (vid : String) : Int :=
  ((ms.filter (fun m => m.product_variant_id == vid)).map signedDelta).sum

/-- One core-performed mutation of the local store: a pull-direction sync
run, or an order-import sale decrement. -/
inductive CoreOp
  | pull (env : Env)
  | sale (variantId : String) (quantity : Int) (saleNumber : String)

/-- Apply one core mutation to the store. -/
def applyOp (s : Store) : CoreOp → Store
  | .pull env => (runPull env s).store
  | .sale vid q sn => updateLocalStock s vid q sn

/-- Apply a sequence of core mutations. -/
def applyOps (s : Store) (ops : List CoreOp) : Store :=
  ops.foldl applyOp s

/-- The ledger-consistency invariant: relative to a baseline of initial
quantities, every variant's stored quantity equals its initial quantity
plus the sum of the signed deltas of its movements. -/
def LedgerInv (initQ : String → Int) (s : Store) : Prop :=
  ∀ v ∈ s.variants, initQ v.id + ledgerSum s.movements v.id = v.stock_quantity

/-! ## Per-unit characterization

Identity resolution and the per-unit decisions depend only on the
environment and the loaded snapshot of a listing, never on the threaded
state; the following pure functions isolate each listing's contribution to
the run, and the characterization lemmas show that a step is exactly the
application of these contributions. -/
/-- The error strings one listing contributes to a pull run. -/
def pullUnitErrors (env : Env) (l : LoadedListing) : List String :=
  match resolvePull env l with
  | .ambiguous msg => [msg]
  | _ => []

/-- Whether one listing is counted as synced by a pull run. -/
def pullUnitSynced (env : Env) (l : LoadedListing) : Bool :=
  match resolvePull env l with
  | .resolved pv mlStock _ => !(mlStock == pv.stock_quantity)
  | _ => false

/-- The stock movements one listing contributes to a pull run. -/
def pullUnitMoves (env : Env) (l : LoadedListing) : List StockMovement :=
  match resolvePull env l with
  | .resolved pv mlStock _ =>
    if mlStock == pv.stock_quantity then []
    else [syncMovement pv.id pv.stock_quantity mlStock]
  | _ => []

/-- The effect of one listing's pull step on an arbitrary stored listing
row. -/
def pullRowF (env : Env) (l : LoadedListing) (r : ListingRow) : ListingRow :=
  if r.id == l.row.id then
    match resolvePull env l with
    | .resolved pv mlStock heal =>
      let r1 := match heal with
                | some vid => { r with external_variant_id := some vid }
                | none => r
      if mlStock == pv.stock_quantity then r1
      else { r1 with stock_synced := mlStock, last_sync_at := some env.now }
    | _ => r
  else r

/-- The effect of one listing's pull step on an arbitrary stored product
variant. -/
def pullVarF (env : Env) (l : LoadedListing) (v : ProductVariant) : ProductVariant :=
  match resolvePull env l with
  | .resolved pv mlStock _ =>
    if !(mlStock == pv.stock_quantity) && v.id == pv.id then
      { v with stock_quantity := mlStock }
    else v
  | _ => v

/-- The push branch's per-listing attempt: `none` when the listing is
skipped (malformed link or quantities already matching), otherwise the
variant and external id used for the remote write. -/
def pushAttempt (l : LoadedListing) : Option (ProductVariant × String) :=
  match l.product_variant with
  | none => none
  | some pv =>
    match l.row.external_id with
    | none => none
    | some eid =>
      if eid == "" then none
      else if pv.stock_quantity == l.row.stock_synced then none
      else some (pv, eid)

/-- The error strings one listing contributes to a push run. -/
def pushUnitErrors (env : Env) (l : LoadedListing) : List String :=
  match pushAttempt l with
  | none => []
  | some (pv, eid) =>
    match env.writeResult eid (pushCoord l) pv.stock_quantity with
    | some msg => ["Item " ++ eid ++ ": " ++ msg]
    | none => []

/-- Whether one listing is counted as synced by a push run. -/
def pushUnitSynced (env : Env) (l : LoadedListing) : Bool :=
  match pushAttempt l with
  | none => false
  | some (pv, eid) => (env.writeResult eid (pushCoord l) pv.stock_quantity).isNone

/-- The successful remote writes one listing contributes to a push run. -/
def pushUnitWrites (env : Env) (l : LoadedListing) : List RemoteWrite :=
  match pushAttempt l with
  | none => []
  | some (pv, eid) =>
    match env.writeResult eid (pushCoord l) pv.stock_quantity with
    | some _ => []
    | none =>
      [match pushCoord l with
       | some varId => RemoteWrite.variation eid varId pv.stock_quantity
       | none => RemoteWrite.item eid pv.stock_quantity]

/-- The effect of one listing's push step on an arbitrary stored listing
row. -/
def pushRowF (env : Env) (l : LoadedListing) (r : ListingRow) : ListingRow :=
  match pushAttempt l with
  | none => r
  | some (pv, eid) =>
    match env.writeResult eid (pushCoord l) pv.stock_quantity with
    | some _ => r
    | none =>
      if r.id == l.row.id then
        { r with stock_synced := pv.stock_quantity, last_sync_at := some env.now }
      else r

/-! ## Run-level accounting

Folding the per-unit characterizations over the whole candidate list. -/
/-- Cumulative effect of a pull run on one stored listing row. -/
def chainPullRowF (env : Env) (L : List LoadedListing) (r : ListingRow) : ListingRow :=
  L.foldl (fun r l => pullRowF env l r) r

/-- Cumulative effect of a pull run on one stored product variant. -/
def chainPullVarF (env : Env) (L : List LoadedListing) (v : ProductVariant) : ProductVariant :=
  L.foldl (fun v l => pullVarF env l v) v

/-- Cumulative effect of a push run on one stored listing row. -/
def chainPushRowF (env : Env) (L : List LoadedListing) (r : ListingRow) : ListingRow :=
  L.foldl (fun r l => pushRowF env l r) r

/-! ## Claim C10 -/
def c10wEnv : Env :=
  { remote := [], writeResult := fun _ _ _ => none, batchFail := none, now := 0 }

def c10wStore : Store := { variants := [], listings := [], movements := [] }

/-! ## Claim C9 -/
def c9cStore : Store :=
  { variants := [{ id := "v1", stock_quantity := 5, sku := none }]
    listings := [{ id := "L1", product_variant_id := "v1", platform := "mercadolibre",
                   external_id := some "MLA1", external_variant_id := none,
                   stock_synced := 5, last_sync_at := none }]
    movements := [] }

def c9cEnv : Env :=
  { remote := [], writeResult := fun _ _ _ => none, batchFail := none, now := 1 }

def c2Row : ListingRow :=
  { id := "L1", product_variant_id := "v1", platform := "mercadolibre",
    external_id := some "MLA100", external_variant_id := none,
    stock_synced := 10, last_sync_at := none }

def c2Store : Store :=
  { variants := [{ id := "v1", stock_quantity := 10, sku := some "SKU1" }]
    listings := [c2Row]
    movements := [] }

def c2Env : Env :=
  { remote := [{ id := "MLA100", available_quantity := 7, variations := none }]
    writeResult := fun _ _ _ => none, batchFail := none, now := 7 }

/-- Whether a core mutation is a sale with a nonnegative quantity (order
imports only ever decrement by the positive quantity sold). -/
def opSaleNonneg : CoreOp → Prop
  | .sale _ q _ => 0 ≤ q
  | .pull _ => True

def c3init : String → Int := fun _ => 10

def c3Store : Store :=
  { variants := [{ id := "v1", stock_quantity := 10, sku := none }]
    listings := [{ id := "L1", product_variant_id := "v1", platform := "mercadolibre",
                   external_id := some "MLA200", external_variant_id := none,
                   stock_synced := 10, last_sync_at := none }]
    movements := [] }

def c3Env : Env :=
  { remote := [{ id := "MLA200", available_quantity := 7, variations := none }]
    writeResult := fun _ _ _ => none, batchFail := none, now := 3 }

def c3ops : List CoreOp := [CoreOp.pull c3Env, CoreOp.sale "v1" 2 "0001"]

/-! ## Claim C6 -/
def c6Store : Store :=
  { variants := [{ id := "v1", stock_quantity := 5, sku := none }]
    listings := [{ id := "L1", product_variant_id := "v1", platform := "mercadolibre",
                   external_id := some "MLA300", external_variant_id := some "999",
                   stock_synced := 5, last_sync_at := none }]
    movements := [] }

def c6Env : Env :=
  { remote := [{ id := "MLA300", available_quantity := 50,
                 variations := some [{ id := 181, available_quantity := 4,
                                       seller_custom_field := none }] }]
    writeResult := fun _ _ _ => none, batchFail := none, now := 2 }

def c6Row : ListingRow :=
  { id := "L1", product_variant_id := "v1", platform := "mercadolibre",
    external_id := some "MLA300", external_variant_id := some "999",
    stock_synced := 5, last_sync_at := none }

def c1Row : ListingRow :=
  { id := "L1", product_variant_id := "v1", platform := "mercadolibre",
    external_id := some "MLA400", external_variant_id := none,
    stock_synced := 8, last_sync_at := none }

def c1Store : Store :=
  { variants := [{ id := "v1", stock_quantity := 8, sku := some "NOMATCH" }]
    listings := [c1Row]
    movements := [] }

def c1Env : Env :=
  { remote := [{ id := "MLA400", available_quantity := 30,
                 variations := some
                   [{ id := 181, available_quantity := 4, seller_custom_field := some "OTHER" },
                    { id := 282, available_quantity := 6, seller_custom_field := none }] }]
    writeResult := fun _ _ _ => none, batchFail := none, now := 9 }

def c7Row : ListingRow :=
  { id := "L1", product_variant_id := "v1", platform := "mercadolibre",
    external_id := some "MLA500", external_variant_id := none,
    stock_synced := 8, last_sync_at := none }

def c7Store : Store :=
  { variants := [{ id := "v1", stock_quantity := 8, sku := some "AULM080CEF-181" }]
    listings := [c7Row]
    movements := [] }

def c7Item : MLItem :=
  { id := "MLA500", available_quantity := 30,
    variations := some [{ id := 181, available_quantity := 4,
                          seller_custom_field := none }] }

def c7Env : Env :=
  { remote := [c7Item], writeResult := fun _ _ _ => none, batchFail := none, now := 4 }

/-! ## Claim C5 -/
/-- The remote write issued by the push branch for one listing: the
variation endpoint when the listing has a (truthy) remote variation id,
the item endpoint otherwise. -/
def pushWriteOf (l : LoadedListing) (eid : String) (q : Int) : RemoteWrite :=
  match pushCoord l with
  | some varId => RemoteWrite.variation eid varId q
  | none => RemoteWrite.item eid q

def c5Row : ListingRow :=
  { id := "L1", product_variant_id := "v1", platform := "mercadolibre",
    external_id := some "MLA600", external_variant_id := some "777",
    stock_synced := 5, last_sync_at := none }

def c5Store : Store :=
  { variants := [{ id := "v1", stock_quantity := 10, sku := none }]
    listings := [c5Row]
    movements := [] }

def c5Env : Env :=
  { remote := [], writeResult := fun _ _ _ => none, batchFail := none, now := 6 }

/-! ## Claim C8 -/
def c8cStore : Store :=
  { variants := [{ id := "v1", stock_quantity := 4, sku := none },
                 { id := "v2", stock_quantity := 4, sku := none },
                 { id := "v3", stock_quantity := 4, sku := none }]
    listings :=
      [{ id := "L1", product_variant_id := "v1", platform := "mercadolibre",
         external_id := none, external_variant_id := none,
         stock_synced := 0, last_sync_at := none },
       { id := "L2", product_variant_id := "v2", platform := "mercadolibre",
         external_id := some "GONE", external_variant_id := none,
         stock_synced := 0, last_sync_at := none },
       { id := "L3", product_variant_id := "v3", platform := "mercadolibre",
         external_id := some "MLA700", external_variant_id := some "999",
         stock_synced := 0, last_sync_at := none }]
    movements := [] }

def c8cEnv : Env :=
  { remote := [{ id := "MLA700", available_quantity := 9,
                 variations := some [{ id := 181, available_quantity := 2,
                                       seller_custom_field := none }] }]
    writeResult := fun _ _ _ => none, batchFail := none, now := 1 }

def c8cEnvFatal : Env :=
  { remote := [], writeResult := fun _ _ _ => none,
    batchFail := some "network down", now := 1 }

def c8wStore : Store :=
  { variants := [{ id := "v1", stock_quantity := 7, sku := none },
                 { id := "v2", stock_quantity := 7, sku := none },
                 { id := "v3", stock_quantity := 7, sku := none }]
    listings :=
      [{ id := "L1", product_variant_id := "v1", platform := "mercadolibre",
         external_id := some "MLA1", external_variant_id := none,
         stock_synced := 0, last_sync_at := none },
       { id := "L2", product_variant_id := "v2", platform := "mercadolibre",
         external_id := some "MLA2", external_variant_id := none,
         stock_synced := 0, last_sync_at := none },
       { id := "L3", product_variant_id := "v3", platform := "mercadolibre",
         external_id := some "MLA3", external_variant_id := none,
         stock_synced := 0, last_sync_at := none }]
    movements := [] }

def c8wEnv : Env :=
  { remote := []
    writeResult := fun eid _ _ => if eid == "MLA2" then some "boom" else none
    batchFail := none, now := 1 }

def c4wStore : Store :=
  { variants := [{ id := "v1", stock_quantity := 10, sku := some "X-181" }]
    listings := [{ id := "L1", product_variant_id := "v1", platform := "mercadolibre",
                   external_id := some "MLA800", external_variant_id := none,
                   stock_synced := 0, last_sync_at := none }]
    movements := [] }

def c4wEnv : Env :=
  { remote := [{ id := "MLA800", available_quantity := 99,
                 variations := some
                   [{ id := 181, available_quantity := 4, seller_custom_field := none },
                    { id := 282, available_quantity := 6, seller_custom_field := none }] }]
    writeResult := fun _ _ _ => none, batchFail := none, now := 5 }

theorem pullStep_errors (env : Env) (st : RunState) (l : LoadedListing) :
    (pullStep env st l).errors = st.errors ++ pullUnitErrors env l := by
  unfold pullStep pullUnitErrors
  cases resolvePull env l with
  | skip => simp
  | ambiguous msg => simp
  | resolved pv mlStock heal =>
    cases heal <;> by_cases hq : mlStock == pv.stock_quantity <;> simp [hq]

theorem pullStep_synced (env : Env) (st : RunState) (l : LoadedListing) :
    (pullStep env st l).synced = st.synced + (if pullUnitSynced env l then 1 else 0) := by
  unfold pullStep pullUnitSynced
  cases resolvePull env l with
  | skip => simp
  | ambiguous msg => simp
  | resolved pv mlStock heal =>
    cases heal <;> by_cases hq : mlStock == pv.stock_quantity <;> simp [hq]

theorem pullStep_writes (env : Env) (st : RunState) (l : LoadedListing) :
    (pullStep env st l).writes = st.writes := by
  unfold pullStep
  cases resolvePull env l with
  | skip => simp
  | ambiguous msg => simp
  | resolved pv mlStock heal =>
    cases heal <;> by_cases hq : mlStock == pv.stock_quantity <;> simp [hq]

theorem pullStep_movements (env : Env) (st : RunState) (l : LoadedListing) :
    (pullStep env st l).store.movements = st.store.movements ++ pullUnitMoves env l := by
  unfold pullStep pullUnitMoves
  cases resolvePull env l with
  | skip => simp
  | ambiguous msg => simp
  | resolved pv mlStock heal =>
    cases heal <;> by_cases hq : mlStock == pv.stock_quantity <;> simp [hq]

theorem pullStep_variants (env : Env) (st : RunState) (l : LoadedListing) :
    (pullStep env st l).store.variants = st.store.variants.map (pullVarF env l) := by
  unfold pullStep pullVarF updVariantStock
  cases resolvePull env l with
  | skip => simp
  | ambiguous msg => simp
  | resolved pv mlStock heal =>
    cases heal <;> by_cases hq : mlStock == pv.stock_quantity <;> simp [hq]

theorem pullStep_listings (env : Env) (st : RunState) (l : LoadedListing) :
    (pullStep env st l).store.listings = st.store.listings.map (pullRowF env l) := by
  unfold pullStep pullRowF updRows
  cases resolvePull env l with
  | skip => simp
  | ambiguous msg => simp
  | resolved pv mlStock heal =>
    cases heal with
    | none => by_cases hq : mlStock == pv.stock_quantity <;> simp [hq]
    | some vid =>
      by_cases hq : mlStock == pv.stock_quantity
      · simp [hq]
      · simp only [hq, List.map_map]
        refine List.map_congr_left (fun r _ => ?_)
        by_cases hr : r.id == l.row.id <;> simp [Function.comp, hr]

theorem pushStep_errors (env : Env) (st : RunState) (l : LoadedListing) :
    (pushStep env st l).errors = st.errors ++ pushUnitErrors env l := by
  unfold pushStep pushUnitErrors pushAttempt
  cases l.product_variant with
  | none => simp
  | some pv =>
    cases l.row.external_id with
    | none => simp
    | some eid =>
      by_cases he : eid == ""
      · simp [he]
      · by_cases hq : pv.stock_quantity == l.row.stock_synced
        · simp [he, hq]
        · cases hw : env.writeResult eid (pushCoord l) pv.stock_quantity <;> simp [he, hq, hw]

theorem pushStep_synced (env : Env) (st : RunState) (l : LoadedListing) :
    (pushStep env st l).synced = st.synced + (if pushUnitSynced env l then 1 else 0) := by
  unfold pushStep pushUnitSynced pushAttempt
  cases l.product_variant with
  | none => simp
  | some pv =>
    cases l.row.external_id with
    | none => simp
    | some eid =>
      by_cases he : eid == ""
      · simp [he]
      · by_cases hq : pv.stock_quantity == l.row.stock_synced
        · simp [he, hq]
        · cases hw : env.writeResult eid (pushCoord l) pv.stock_quantity <;> simp [he, hq, hw]

theorem pushStep_writes (env : Env) (st : RunState) (l : LoadedListing) :
    (pushStep env st l).writes = st.writes ++ pushUnitWrites env l := by
  unfold pushStep pushUnitWrites pushAttempt
  cases l.product_variant with
  | none => simp
  | some pv =>
    cases l.row.external_id with
    | none => simp
    | some eid =>
      by_cases he : eid == ""
      · simp [he]
      · by_cases hq : pv.stock_quantity == l.row.stock_synced
        · simp [he, hq]
        · cases hw : env.writeResult eid (pushCoord l) pv.stock_quantity <;> simp [he, hq, hw]

theorem pushStep_variants (env : Env) (st : RunState) (l : LoadedListing) :
    (pushStep env st l).store.variants = st.store.variants := by
  unfold pushStep
  cases l.product_variant with
  | none => simp
  | some pv =>
    cases l.row.external_id with
    | none => simp
    | some eid =>
      by_cases he : eid == ""
      · simp [he]
      · by_cases hq : pv.stock_quantity == l.row.stock_synced
        · simp [he, hq]
        · cases hw : env.writeResult eid (pushCoord l) pv.stock_quantity <;> simp [he, hq, hw]

theorem pushStep_movements (env : Env) (st : RunState) (l : LoadedListing) :
    (pushStep env st l).store.movements = st.store.movements := by
  unfold pushStep
  cases l.product_variant with
  | none => simp
  | some pv =>
    cases l.row.external_id with
    | none => simp
    | some eid =>
      by_cases he : eid == ""
      · simp [he]
      · by_cases hq : pv.stock_quantity == l.row.stock_synced
        · simp [he, hq]
        · cases hw : env.writeResult eid (pushCoord l) pv.stock_quantity <;> simp [he, hq, hw]

theorem pushStep_listings (env : Env) (st : RunState) (l : LoadedListing) :
    (pushStep env st l).store.listings = st.store.listings.map (pushRowF env l) := by
  unfold pushStep pushRowF pushAttempt updRows
  cases l.product_variant with
  | none => simp
  | some pv =>
    cases l.row.external_id with
    | none => simp
    | some eid =>
      by_cases he : eid == ""
      · simp [he]
      · by_cases hq : pv.stock_quantity == l.row.stock_synced
        · simp [he, hq]
        · cases hw : env.writeResult eid (pushCoord l) pv.stock_quantity <;> simp [he, hq, hw]

theorem pullFold_errors (env : Env) (L : List LoadedListing) (st : RunState) :
    (L.foldl (pullStep env) st).errors = st.errors ++ L.flatMap (pullUnitErrors env) := by
  induction L generalizing st with
  | nil => simp
  | cons l L ih => simp [List.foldl_cons, ih, pullStep_errors]

theorem pullFold_synced (env : Env) (L : List LoadedListing) (st : RunState) :
    (L.foldl (pullStep env) st).synced = st.synced + L.countP (pullUnitSynced env) := by
  induction L generalizing st with
  | nil => simp
  | cons l L ih =>
    simp only [List.foldl_cons, ih, pullStep_synced, List.countP_cons]
    by_cases h : pullUnitSynced env l <;> simp [h] <;> omega

theorem pullFold_writes (env : Env) (L : List LoadedListing) (st : RunState) :
    (L.foldl (pullStep env) st).writes = st.writes := by
  induction L generalizing st with
  | nil => rfl
  | cons l L ih => simp [List.foldl_cons, ih, pullStep_writes]

theorem pullFold_movements (env : Env) (L : List LoadedListing) (st : RunState) :
    (L.foldl (pullStep env) st).store.movements =
      st.store.movements ++ L.flatMap (pullUnitMoves env) := by
  induction L generalizing st with
  | nil => simp
  | cons l L ih => simp [List.foldl_cons, ih, pullStep_movements]

theorem pullFold_variants (env : Env) (L : List LoadedListing) (st : RunState) :
    (L.foldl (pullStep env) st).store.variants =
      st.store.variants.map (chainPullVarF env L) := by
  induction L generalizing st with
  | nil =>
    have h : chainPullVarF env [] = fun v => v := rfl
    simp [h]
  | cons l L ih =>
    simp only [List.foldl_cons, ih, pullStep_variants, List.map_map]
    rfl

theorem pullFold_listings (env : Env) (L : List LoadedListing) (st : RunState) :
    (L.foldl (pullStep env) st).store.listings =
      st.store.listings.map (chainPullRowF env L) := by
  induction L generalizing st with
  | nil =>
    have h : chainPullRowF env [] = fun r => r := rfl
    simp [h]
  | cons l L ih =>
    simp only [List.foldl_cons, ih, pullStep_listings, List.map_map]
    rfl

theorem pushFold_errors (env : Env) (L : List LoadedListing) (st : RunState) :
    (L.foldl (pushStep env) st).errors = st.errors ++ L.flatMap (pushUnitErrors env) := by
  induction L generalizing st with
  | nil => simp
  | cons l L ih => simp [List.foldl_cons, ih, pushStep_errors]

theorem pushFold_synced (env : Env) (L : List LoadedListing) (st : RunState) :
    (L.foldl (pushStep env) st).synced = st.synced + L.countP (pushUnitSynced env) := by
  induction L generalizing st with
  | nil => simp
  | cons l L ih =>
    simp only [List.foldl_cons, ih, pushStep_synced, List.countP_cons]
    by_cases h : pushUnitSynced env l <;> simp [h] <;> omega

theorem pushFold_writes (env : Env) (L : List LoadedListing) (st : RunState) :
    (L.foldl (pushStep env) st).writes = st.writes ++ L.flatMap (pushUnitWrites env) := by
  induction L generalizing st with
  | nil => simp
  | cons l L ih => simp [List.foldl_cons, ih, pushStep_writes]

theorem pushFold_variants (env : Env) (L : List LoadedListing) (st : RunState) :
    (L.foldl (pushStep env) st).store.variants = st.store.variants := by
  induction L generalizing st with
  | nil => rfl
  | cons l L ih => simp [List.foldl_cons, ih, pushStep_variants]

theorem pushFold_movements (env : Env) (L : List LoadedListing) (st : RunState) :
    (L.foldl (pushStep env) st).store.movements = st.store.movements := by
  induction L generalizing st with
  | nil => rfl
  | cons l L ih => simp [List.foldl_cons, ih, pushStep_movements]

theorem pushFold_listings (env : Env) (L : List LoadedListing) (st : RunState) :
    (L.foldl (pushStep env) st).store.listings =
      st.store.listings.map (chainPushRowF env L) := by
  induction L generalizing st with
  | nil =>
    have h : chainPushRowF env [] = fun r => r := rfl
    simp [h]
  | cons l L ih =>
    simp only [List.foldl_cons, ih, pushStep_listings, List.map_map]
    rfl

/-! ## Preservation and frame lemmas -/
theorem resolveSet_pv (pv : ProductVariant) (it : MLItem) (evid : String)
    (pv1 : ProductVariant) (q : Int) (hl : Option String)
    (h : resolveSet pv it evid = .resolved pv1 q hl) : pv1 = pv := by
  unfold resolveSet at h
  cases hf : (varList it).find? (fun v => toString v.id == evid) with
  | some v => rw [hf] at h; cases h; rfl
  | none =>
    rw [hf] at h
    by_cases hz : (varList it).length == 0
    · simp [hz] at h; exact h.1.symm
    · simp [hz] at h

theorem resolveUnset_pv (eid : String) (pv : ProductVariant) (it : MLItem)
    (pv1 : ProductVariant) (q : Int) (hl : Option String)
    (h : resolveUnset eid pv it = .resolved pv1 q hl) : pv1 = pv := by
  unfold resolveUnset at h
  by_cases hn : (varList it).length > 0
  · simp only [hn, if_true] at h
    cases hm : recoverVariation pv.sku (varList it) with
    | some v => rw [hm] at h; cases h; rfl
    | none => rw [hm] at h; cases h
  · simp only [hn, if_false] at h; cases h; rfl

/-- A `resolved` outcome always carries the listing's own joined variant. -/
theorem resolvePull_pv (env : Env) (l : LoadedListing) (pv : ProductVariant)
    (q : Int) (hl : Option String) (h : resolvePull env l = .resolved pv q hl) :
    l.product_variant = some pv := by
  unfold resolvePull at h
  cases hv : l.product_variant with
  | none => rw [hv] at h; cases h
  | some pv0 =>
    rw [hv] at h
    cases he : l.row.external_id with
    | none => rw [he] at h; cases h
    | some eid =>
      rw [he] at h
      by_cases hee : eid == ""
      · simp [hee] at h
      · simp only [hee, Bool.false_eq_true, if_false] at h
        cases hr : remoteLookup env eid with
        | none => rw [hr] at h; cases h
        | some it =>
          rw [hr] at h
          cases hev : l.row.external_variant_id with
          | none => rw [hev] at h; rw [resolveUnset_pv eid pv0 it pv q hl h]
          | some evid =>
            rw [hev] at h
            by_cases hz : evid == ""
            · simp only [hz, if_true] at h; rw [resolveUnset_pv eid pv0 it pv q hl h]
            · simp only [hz, Bool.false_eq_true, if_false] at h
              rw [resolveSet_pv pv0 it evid pv q hl h]

/-- The join binds a variant found by the row's `product_variant_id`. -/
theorem joinListing_pv (s : Store) (r : ListingRow) (pv : ProductVariant)
    (h : (joinListing s r).product_variant = some pv) :
    pv.id = r.product_variant_id := by
  simp only [joinListing] at h
  have := List.find?_some h
  simpa using this

theorem pullRowF_id (env : Env) (l : LoadedListing) (r : ListingRow) :
    (pullRowF env l r).id = r.id := by
  unfold pullRowF
  by_cases hr : r.id == l.row.id
  · simp only [hr, if_true]
    cases resolvePull env l with
    | skip => rfl
    | ambiguous m => rfl
    | resolved pv q hl =>
      cases hl <;> by_cases hq : q == pv.stock_quantity <;> simp [hq]
  · simp [hr]

theorem pullRowF_platform (env : Env) (l : LoadedListing) (r : ListingRow) :
    (pullRowF env l r).platform = r.platform := by
  unfold pullRowF
  by_cases hr : r.id == l.row.id
  · simp only [hr, if_true]
    cases resolvePull env l with
    | skip => rfl
    | ambiguous m => rfl
    | resolved pv q hl =>
      cases hl <;> by_cases hq : q == pv.stock_quantity <;> simp [hq]
  · simp [hr]

theorem pullRowF_pvid (env : Env) (l : LoadedListing) (r : ListingRow) :
    (pullRowF env l r).product_variant_id = r.product_variant_id := by
  unfold pullRowF
  by_cases hr : r.id == l.row.id
  · simp only [hr, if_true]
    cases resolvePull env l with
    | skip => rfl
    | ambiguous m => rfl
    | resolved pv q hl =>
      cases hl <;> by_cases hq : q == pv.stock_quantity <;> simp [hq]
  · simp [hr]

theorem pullRowF_eid (env : Env) (l : LoadedListing) (r : ListingRow) :
    (pullRowF env l r).external_id = r.external_id := by
  unfold pullRowF
  by_cases hr : r.id == l.row.id
  · simp only [hr, if_true]
    cases resolvePull env l with
    | skip => rfl
    | ambiguous m => rfl
    | resolved pv q hl =>
      cases hl <;> by_cases hq : q == pv.stock_quantity <;> simp [hq]
  · simp [hr]

theorem pushRowF_id (env : Env) (l : LoadedListing) (r : ListingRow) :
    (pushRowF env l r).id = r.id := by
  unfold pushRowF
  cases hA : pushAttempt l with
  | none => rfl
  | some pe =>
    obtain ⟨pv, eid⟩ := pe
    dsimp only
    cases hw : env.writeResult eid (pushCoord l) pv.stock_quantity with
    | some m => rfl
    | none => by_cases hr : r.id == l.row.id <;> simp [hw, hr]

theorem pushRowF_platform (env : Env) (l : LoadedListing) (r : ListingRow) :
    (pushRowF env l r).platform = r.platform := by
  unfold pushRowF
  cases hA : pushAttempt l with
  | none => rfl
  | some pe =>
    obtain ⟨pv, eid⟩ := pe
    dsimp only
    cases hw : env.writeResult eid (pushCoord l) pv.stock_quantity with
    | some m => rfl
    | none => by_cases hr : r.id == l.row.id <;> simp [hw, hr]

theorem pushRowF_pvid (env : Env) (l : LoadedListing) (r : ListingRow) :
    (pushRowF env l r).product_variant_id = r.product_variant_id := by
  unfold pushRowF
  cases hA : pushAttempt l with
  | none => rfl
  | some pe =>
    obtain ⟨pv, eid⟩ := pe
    dsimp only
    cases hw : env.writeResult eid (pushCoord l) pv.stock_quantity with
    | some m => rfl
    | none => by_cases hr : r.id == l.row.id <;> simp [hw, hr]

theorem pushRowF_eid (env : Env) (l : LoadedListing) (r : ListingRow) :
    (pushRowF env l r).external_id = r.external_id := by
  unfold pushRowF
  cases hA : pushAttempt l with
  | none => rfl
  | some pe =>
    obtain ⟨pv, eid⟩ := pe
    dsimp only
    cases hw : env.writeResult eid (pushCoord l) pv.stock_quantity with
    | some m => rfl
    | none => by_cases hr : r.id == l.row.id <;> simp [hw, hr]

theorem pushRowF_evid (env : Env) (l : LoadedListing) (r : ListingRow) :
    (pushRowF env l r).external_variant_id = r.external_variant_id := by
  unfold pushRowF
  cases hA : pushAttempt l with
  | none => rfl
  | some pe =>
    obtain ⟨pv, eid⟩ := pe
    dsimp only
    cases hw : env.writeResult eid (pushCoord l) pv.stock_quantity with
    | some m => rfl
    | none => by_cases hr : r.id == l.row.id <;> simp [hw, hr]

theorem pullVarF_id (env : Env) (l : LoadedListing) (v : ProductVariant) :
    (pullVarF env l v).id = v.id := by
  unfold pullVarF
  cases resolvePull env l with
  | skip => rfl
  | ambiguous m => rfl
  | resolved pv q hl =>
    by_cases hc : (!(q == pv.stock_quantity) && v.id == pv.id) <;> simp [hc]

theorem pullVarF_sku (env : Env) (l : LoadedListing) (v : ProductVariant) :
    (pullVarF env l v).sku = v.sku := by
  unfold pullVarF
  cases resolvePull env l with
  | skip => rfl
  | ambiguous m => rfl
  | resolved pv q hl =>
    by_cases hc : (!(q == pv.stock_quantity) && v.id == pv.id) <;> simp [hc]

/-- A listing whose stored row has a different id leaves that row alone
(pull). -/
theorem pullRowF_other (env : Env) (l : LoadedListing) (r : ListingRow)
    (h : r.id ≠ l.row.id) : pullRowF env l r = r := by
  unfold pullRowF
  simp [h]

/-- A listing whose stored row has a different id leaves that row alone
(push). -/
theorem pushRowF_other (env : Env) (l : LoadedListing) (r : ListingRow)
    (h : r.id ≠ l.row.id) : pushRowF env l r = r := by
  unfold pushRowF
  cases hA : pushAttempt l with
  | none => rfl
  | some pe =>
    obtain ⟨pv, eid⟩ := pe
    dsimp only
    cases hw : env.writeResult eid (pushCoord l) pv.stock_quantity with
    | some m => rfl
    | none => simp [hw, h]

/-- A listing joined to a different variant id leaves that variant alone. -/
theorem pullVarF_other (env : Env) (l : LoadedListing) (v : ProductVariant)
    (h : ∀ pv, l.product_variant = some pv → v.id ≠ pv.id) :
    pullVarF env l v = v := by
  unfold pullVarF
  cases hres : resolvePull env l with
  | skip => rfl
  | ambiguous m => rfl
  | resolved pv q hl =>
    have hpv := resolvePull_pv env l pv q hl hres
    have hne := h pv hpv
    simp [hne]

theorem chainPullRowF_cons (env : Env) (l : LoadedListing) (L : List LoadedListing)
    (r : ListingRow) :
    chainPullRowF env (l :: L) r = chainPullRowF env L (pullRowF env l r) := rfl

theorem chainPullRowF_append (env : Env) (L1 L2 : List LoadedListing) (r : ListingRow) :
    chainPullRowF env (L1 ++ L2) r = chainPullRowF env L2 (chainPullRowF env L1 r) := by
  simp [chainPullRowF, List.foldl_append]

theorem chainPullRowF_other (env : Env) (L : List LoadedListing) (r : ListingRow)
    (h : ∀ x ∈ L, r.id ≠ x.row.id) : chainPullRowF env L r = r := by
  induction L with
  | nil => rfl
  | cons l L ih =>
    rw [chainPullRowF_cons, pullRowF_other env l r (h l (by simp))]
    exact ih (fun x hx => h x (by simp [hx]))

theorem chainPullRowF_id (env : Env) (L : List LoadedListing) (r : ListingRow) :
    (chainPullRowF env L r).id = r.id := by
  induction L generalizing r with
  | nil => rfl
  | cons l L ih => rw [chainPullRowF_cons, ih, pullRowF_id]

theorem chainPullRowF_platform (env : Env) (L : List LoadedListing) (r : ListingRow) :
    (chainPullRowF env L r).platform = r.platform := by
  induction L generalizing r with
  | nil => rfl
  | cons l L ih => rw [chainPullRowF_cons, ih, pullRowF_platform]

theorem chainPullRowF_pvid (env : Env) (L : List LoadedListing) (r : ListingRow) :
    (chainPullRowF env L r).product_variant_id = r.product_variant_id := by
  induction L generalizing r with
  | nil => rfl
  | cons l L ih => rw [chainPullRowF_cons, ih, pullRowF_pvid]

theorem chainPullRowF_eid (env : Env) (L : List LoadedListing) (r : ListingRow) :
    (chainPullRowF env L r).external_id = r.external_id := by
  induction L generalizing r with
  | nil => rfl
  | cons l L ih => rw [chainPullRowF_cons, ih, pullRowF_eid]

theorem chainPullRowF_middle (env : Env) (L1 : List LoadedListing) (l : LoadedListing)
    (L2 : List LoadedListing) (r : ListingRow)
    (h1 : ∀ x ∈ L1, r.id ≠ x.row.id) (h2 : ∀ x ∈ L2, r.id ≠ x.row.id) :
    chainPullRowF env (L1 ++ l :: L2) r = pullRowF env l r := by
  rw [chainPullRowF_append, chainPullRowF_other env L1 r h1, chainPullRowF_cons]
  exact chainPullRowF_other env L2 _ (fun x hx => by rw [pullRowF_id]; exact h2 x hx)

theorem chainPushRowF_cons (env : Env) (l : LoadedListing) (L : List LoadedListing)
    (r : ListingRow) :
    chainPushRowF env (l :: L) r = chainPushRowF env L (pushRowF env l r) := rfl

theorem chainPushRowF_append (env : Env) (L1 L2 : List LoadedListing) (r : ListingRow) :
    chainPushRowF env (L1 ++ L2) r = chainPushRowF env L2 (chainPushRowF env L1 r) := by
  simp [chainPushRowF, List.foldl_append]

theorem chainPushRowF_other (env : Env) (L : List LoadedListing) (r : ListingRow)
    (h : ∀ x ∈ L, r.id ≠ x.row.id) : chainPushRowF env L r = r := by
  induction L with
  | nil => rfl
  | cons l L ih =>
    rw [chainPushRowF_cons, pushRowF_other env l r (h l (by simp))]
    exact ih (fun x hx => h x (by simp [hx]))

theorem chainPushRowF_id (env : Env) (L : List LoadedListing) (r : ListingRow) :
    (chainPushRowF env L r).id = r.id := by
  induction L generalizing r with
  | nil => rfl
  | cons l L ih => rw [chainPushRowF_cons, ih, pushRowF_id]

theorem chainPushRowF_platform (env : Env) (L : List LoadedListing) (r : ListingRow) :
    (chainPushRowF env L r).platform = r.platform := by
  induction L generalizing r with
  | nil => rfl
  | cons l L ih => rw [chainPushRowF_cons, ih, pushRowF_platform]

theorem chainPushRowF_pvid (env : Env) (L : List LoadedListing) (r : ListingRow) :
    (chainPushRowF env L r).product_variant_id = r.product_variant_id := by
  induction L generalizing r with
  | nil => rfl
  | cons l L ih => rw [chainPushRowF_cons, ih, pushRowF_pvid]

theorem chainPushRowF_eid (env : Env) (L : List LoadedListing) (r : ListingRow) :
    (chainPushRowF env L r).external_id = r.external_id := by
  induction L generalizing r with
  | nil => rfl
  | cons l L ih => rw [chainPushRowF_cons, ih, pushRowF_eid]

theorem chainPushRowF_evid (env : Env) (L : List LoadedListing) (r : ListingRow) :
    (chainPushRowF env L r).external_variant_id = r.external_variant_id := by
  induction L generalizing r with
  | nil => rfl
  | cons l L ih => rw [chainPushRowF_cons, ih, pushRowF_evid]

theorem chainPushRowF_middle (env : Env) (L1 : List LoadedListing) (l : LoadedListing)
    (L2 : List LoadedListing) (r : ListingRow)
    (h1 : ∀ x ∈ L1, r.id ≠ x.row.id) (h2 : ∀ x ∈ L2, r.id ≠ x.row.id) :
    chainPushRowF env (L1 ++ l :: L2) r = pushRowF env l r := by
  rw [chainPushRowF_append, chainPushRowF_other env L1 r h1, chainPushRowF_cons]
  exact chainPushRowF_other env L2 _ (fun x hx => by rw [pushRowF_id]; exact h2 x hx)

theorem chainPullVarF_cons (env : Env) (l : LoadedListing) (L : List LoadedListing)
    (v : ProductVariant) :
    chainPullVarF env (l :: L) v = chainPullVarF env L (pullVarF env l v) := rfl

theorem chainPullVarF_append (env : Env) (L1 L2 : List LoadedListing) (v : ProductVariant) :
    chainPullVarF env (L1 ++ L2) v = chainPullVarF env L2 (chainPullVarF env L1 v) := by
  simp [chainPullVarF, List.foldl_append]

theorem chainPullVarF_other (env : Env) (L : List LoadedListing) (v : ProductVariant)
    (h : ∀ x ∈ L, ∀ pv, x.product_variant = some pv → v.id ≠ pv.id) :
    chainPullVarF env L v = v := by
  induction L with
  | nil => rfl
  | cons l L ih =>
    rw [chainPullVarF_cons, pullVarF_other env l v (h l (by simp))]
    exact ih (fun x hx => h x (by simp [hx]))

theorem chainPullVarF_id (env : Env) (L : List LoadedListing) (v : ProductVariant) :
    (chainPullVarF env L v).id = v.id := by
  induction L generalizing v with
  | nil => rfl
  | cons l L ih => rw [chainPullVarF_cons, ih, pullVarF_id]

theorem chainPullVarF_sku (env : Env) (L : List LoadedListing) (v : ProductVariant) :
    (chainPullVarF env L v).sku = v.sku := by
  induction L generalizing v with
  | nil => rfl
  | cons l L ih => rw [chainPullVarF_cons, ih, pullVarF_sku]

theorem chainPullVarF_middle (env : Env) (L1 : List LoadedListing) (l : LoadedListing)
    (L2 : List LoadedListing) (v : ProductVariant)
    (h1 : ∀ x ∈ L1, ∀ pv, x.product_variant = some pv → v.id ≠ pv.id)
    (h2 : ∀ x ∈ L2, ∀ pv, x.product_variant = some pv → v.id ≠ pv.id) :
    chainPullVarF env (L1 ++ l :: L2) v = pullVarF env l v := by
  rw [chainPullVarF_append, chainPullVarF_other env L1 v h1, chainPullVarF_cons]
  exact chainPullVarF_other env L2 _
    (fun x hx pv hpv => by rw [pullVarF_id]; exact h2 x hx pv hpv)

/-- Finding commutes with mapping a function that preserves the predicate. -/
theorem find?_map_pres {α : Type} (f : α → α) (p : α → Bool)
    (hp : ∀ a, p (f a) = p a) (xs : List α) :
    (xs.map f).find? p = (xs.find? p).map f := by
  induction xs with
  | nil => rfl
  | cons a xs ih =>
    cases hpa : p a with
    | true =>
      rw [List.find?_cons_of_pos _ hpa, List.map_cons,
        List.find?_cons_of_pos _ (by rw [hp a]; exact hpa)]
      rfl
    | false =>
      rw [List.find?_cons_of_neg _ (by simp [hpa]), List.map_cons,
        List.find?_cons_of_neg _ (by simp [hp a, hpa])]
      exact ih

/-- Filtering by platform commutes with a platform-preserving row map. -/
theorem filter_platform_map (rows : List ListingRow) (g : ListingRow → ListingRow)
    (hg : ∀ r, (g r).platform = r.platform) :
    (rows.map g).filter (fun r => r.platform == "mercadolibre") =
      (rows.filter (fun r => r.platform == "mercadolibre")).map g := by
  rw [List.filter_map]
  congr 1
  apply List.filter_congr
  intro r _
  simp [Function.comp, hg r]

/-! ## Small auxiliary facts -/
theorem toDigitsCore_length_ge (b : Nat) :
    ∀ (f n : Nat) (l : List Char), l.length ≤ (Nat.toDigitsCore b f n l).length := by
  intro f
  induction f with
  | zero => intro n l; simp [Nat.toDigitsCore]
  | succ f ih =>
    intro n l
    simp only [Nat.toDigitsCore]
    by_cases h : n / b = 0
    · simp [h]
    · simp only [h, if_false]
      calc l.length ≤ (Nat.digitChar (n % b) :: l).length := by simp
        _ ≤ _ := ih _ _

theorem toDigits_ne_nil (b n : Nat) : Nat.toDigits b n ≠ [] := by
  unfold Nat.toDigits
  simp only [Nat.toDigitsCore]
  by_cases h : n / b = 0
  · simp [h]
  · simp only [h, if_false]
    intro hc
    have hlen := toDigitsCore_length_ge b n (n / b) [Nat.digitChar (n % b)]
    rw [hc] at hlen
    simp at hlen

/-- The decimal string of a natural number is never empty (`String(v.id)`
is always truthy). -/
theorem natToString_ne_empty (n : Nat) : toString n ≠ "" := by
  intro h
  apply toDigits_ne_nil 10 n
  have h2 : (Nat.toDigits 10 n).asString = "" := h
  exact congrArg String.data h2

/-- In a list whose images under `f` are distinct, `find?` by the image of
a member returns exactly that member. -/
theorem find?_eq_of_nodup_map {α β : Type} [BEq β] [LawfulBEq β] (f : α → β)
    (xs : List α) (x : α) (hnd : (xs.map f).Nodup) (hx : x ∈ xs) :
    xs.find? (fun y => f y == f x) = some x := by
  induction xs with
  | nil => cases hx
  | cons a xs ih =>
    simp only [List.map_cons, List.nodup_cons] at hnd
    rcases List.mem_cons.mp hx with rfl | hx2
    · exact List.find?_cons_of_pos _ (by simp)
    · have hne : f a ≠ f x := by
        intro hfe
        exact hnd.1 (hfe ▸ List.mem_map_of_mem f hx2)
      rw [List.find?_cons_of_neg _ (by simp [hne])]
      exact ih hnd.2 hx2

/-! ## Run-level specializations -/
theorem runPull_errors (env : Env) (s : Store) :
    (runPull env s).errors = (loadListings s).flatMap (pullUnitErrors env) := by
  have h := pullFold_errors env (loadListings s) (initState s)
  simpa [initState] using h

theorem runPull_synced (env : Env) (s : Store) :
    (runPull env s).synced = (loadListings s).countP (pullUnitSynced env) := by
  have h := pullFold_synced env (loadListings s) (initState s)
  simpa [initState] using h

theorem runPull_writes (env : Env) (s : Store) : (runPull env s).writes = [] := by
  have h := pullFold_writes env (loadListings s) (initState s)
  simpa [initState] using h

theorem runPull_movements (env : Env) (s : Store) :
    (runPull env s).store.movements = s.movements ++ (loadListings s).flatMap (pullUnitMoves env) := by
  have h := pullFold_movements env (loadListings s) (initState s)
  simpa [initState] using h

theorem runPull_variants (env : Env) (s : Store) :
    (runPull env s).store.variants = s.variants.map (chainPullVarF env (loadListings s)) := by
  have h := pullFold_variants env (loadListings s) (initState s)
  simpa [initState] using h

theorem runPull_listings (env : Env) (s : Store) :
    (runPull env s).store.listings = s.listings.map (chainPullRowF env (loadListings s)) := by
  have h := pullFold_listings env (loadListings s) (initState s)
  simpa [initState] using h

theorem runPush_errors (env : Env) (s : Store) :
    (runPush env s).errors = (loadListings s).flatMap (pushUnitErrors env) := by
  have h := pushFold_errors env (loadListings s) (initState s)
  simpa [initState] using h

theorem runPush_synced (env : Env) (s : Store) :
    (runPush env s).synced = (loadListings s).countP (pushUnitSynced env) := by
  have h := pushFold_synced env (loadListings s) (initState s)
  simpa [initState] using h

theorem runPush_writes (env : Env) (s : Store) :
    (runPush env s).writes = (loadListings s).flatMap (pushUnitWrites env) := by
  have h := pushFold_writes env (loadListings s) (initState s)
  simpa [initState] using h

theorem runPush_variants (env : Env) (s : Store) :
    (runPush env s).store.variants = s.variants := by
  have h := pushFold_variants env (loadListings s) (initState s)
  simpa [initState] using h

theorem runPush_movements (env : Env) (s : Store) :
    (runPush env s).store.movements = s.movements := by
  have h := pushFold_movements env (loadListings s) (initState s)
  simpa [initState] using h

theorem runPush_listings (env : Env) (s : Store) :
    (runPush env s).store.listings = s.listings.map (chainPushRowF env (loadListings s)) := by
  have h := pushFold_listings env (loadListings s) (initState s)
  simpa [initState] using h

/-! ## Resolution case lemmas -/
theorem resolvePull_skip_noPv (env : Env) (l : LoadedListing)
    (h : l.product_variant = none) : resolvePull env l = .skip := by
  unfold resolvePull; rw [h]

theorem resolvePull_skip_noEid (env : Env) (l : LoadedListing) (pv : ProductVariant)
    (hpv : l.product_variant = some pv) (h : l.row.external_id = none) :
    resolvePull env l = .skip := by
  unfold resolvePull; rw [hpv, h]

theorem resolvePull_skip_emptyEid (env : Env) (l : LoadedListing) (pv : ProductVariant)
    (hpv : l.product_variant = some pv) (h : l.row.external_id = some "") :
    resolvePull env l = .skip := by
  unfold resolvePull; rw [hpv, h]; simp

theorem resolvePull_skip_noItem (env : Env) (l : LoadedListing) (pv : ProductVariant)
    (eid : String) (hpv : l.product_variant = some pv)
    (heid : l.row.external_id = some eid) (hee : eid ≠ "")
    (h : remoteLookup env eid = none) : resolvePull env l = .skip := by
  unfold resolvePull; rw [hpv, heid]
  simp only [beq_iff_eq, hee, if_false]
  rw [h]

theorem resolvePull_set (env : Env) (l : LoadedListing) (pv : ProductVariant)
    (eid : String) (it : MLItem) (evid : String)
    (hpv : l.product_variant = some pv) (heid : l.row.external_id = some eid)
    (hee : eid ≠ "") (hit : remoteLookup env eid = some it)
    (hev : l.row.external_variant_id = some evid) (hevne : evid ≠ "") :
    resolvePull env l = resolveSet pv it evid := by
  unfold resolvePull; rw [hpv, heid]
  simp only [beq_iff_eq, hee, if_false]
  rw [hit, hev]
  simp [hevne]

theorem resolvePull_unset (env : Env) (l : LoadedListing) (pv : ProductVariant)
    (eid : String) (it : MLItem)
    (hpv : l.product_variant = some pv) (heid : l.row.external_id = some eid)
    (hee : eid ≠ "") (hit : remoteLookup env eid = some it)
    (hev : truthy l.row.external_variant_id = false) :
    resolvePull env l = resolveUnset eid pv it := by
  unfold resolvePull; rw [hpv, heid]
  simp only [beq_iff_eq, hee, if_false]
  rw [hit]
  cases hev2 : l.row.external_variant_id with
  | none => rfl
  | some evid =>
    rw [hev2] at hev
    have hevv : evid = "" := by simpa [truthy] using hev
    simp [hevv]

theorem resolveUnset_match (eid : String) (pv : ProductVariant) (it : MLItem)
    (v : MLVariation) (hvs : varList it ≠ [])
    (hm : recoverVariation pv.sku (varList it) = some v) :
    resolveUnset eid pv it = .resolved pv v.available_quantity (some (toString v.id)) := by
  unfold resolveUnset
  have hlen : 0 < (varList it).length := List.length_pos.mpr hvs
  simp only [hlen, if_true, hm]

theorem resolveUnset_nomatch (eid : String) (pv : ProductVariant) (it : MLItem)
    (hvs : varList it ≠ []) (hm : recoverVariation pv.sku (varList it) = none) :
    resolveUnset eid pv it =
      .ambiguous ("Saltado " ++ eid ++ ": Requiere vinculación manual de variante") := by
  unfold resolveUnset
  have hlen : 0 < (varList it).length := List.length_pos.mpr hvs
  simp only [hlen, if_true, hm]

theorem resolveUnset_simple (eid : String) (pv : ProductVariant) (it : MLItem)
    (hvs : varList it = []) :
    resolveUnset eid pv it = .resolved pv it.available_quantity none := by
  unfold resolveUnset
  simp [hvs]

theorem resolveSet_found (pv : ProductVariant) (it : MLItem) (evid : String)
    (v : MLVariation) (hf : (varList it).find? (fun w => toString w.id == evid) = some v) :
    resolveSet pv it evid = .resolved pv v.available_quantity none := by
  unfold resolveSet; rw [hf]

theorem resolveSet_fallback (pv : ProductVariant) (it : MLItem) (evid : String)
    (hf : (varList it).find? (fun w => toString w.id == evid) = none)
    (hz : varList it = []) :
    resolveSet pv it evid = .resolved pv it.available_quantity none := by
  unfold resolveSet; rw [hf]; simp [hz]

theorem resolveSet_stale (pv : ProductVariant) (it : MLItem) (evid : String)
    (hf : (varList it).find? (fun w => toString w.id == evid) = none)
    (hz : varList it ≠ []) :
    resolveSet pv it evid = .skip := by
  unfold resolveSet; rw [hf]
  have hlen : 0 < (varList it).length := List.length_pos.mpr hz
  simp [Nat.pos_iff_ne_zero.mp hlen]

/-! ## Per-unit effect lemmas -/
theorem pullStep_of_skip (env : Env) (st : RunState) (l : LoadedListing)
    (h : resolvePull env l = .skip) : pullStep env st l = st := by
  unfold pullStep; rw [h]

theorem pullStep_of_ambiguous (env : Env) (st : RunState) (l : LoadedListing)
    (msg : String) (h : resolvePull env l = .ambiguous msg) :
    pullStep env st l = { st with errors := st.errors ++ [msg] } := by
  unfold pullStep; rw [h]

theorem pullUnitErrors_of_skip (env : Env) (l : LoadedListing)
    (h : resolvePull env l = .skip) : pullUnitErrors env l = [] := by
  unfold pullUnitErrors; rw [h]

theorem pullUnitErrors_of_ambiguous (env : Env) (l : LoadedListing) (msg : String)
    (h : resolvePull env l = .ambiguous msg) : pullUnitErrors env l = [msg] := by
  unfold pullUnitErrors; rw [h]

theorem pullUnitErrors_of_resolved (env : Env) (l : LoadedListing)
    (pv : ProductVariant) (q : Int) (hl : Option String)
    (h : resolvePull env l = .resolved pv q hl) : pullUnitErrors env l = [] := by
  unfold pullUnitErrors; rw [h]

theorem pullRowF_of_skip (env : Env) (l : LoadedListing) (r : ListingRow)
    (h : resolvePull env l = .skip) : pullRowF env l r = r := by
  unfold pullRowF; rw [h]; simp

theorem pullRowF_of_ambiguous (env : Env) (l : LoadedListing) (r : ListingRow)
    (msg : String) (h : resolvePull env l = .ambiguous msg) : pullRowF env l r = r := by
  unfold pullRowF; rw [h]; simp

theorem pullVarF_of_skip (env : Env) (l : LoadedListing) (v : ProductVariant)
    (h : resolvePull env l = .skip) : pullVarF env l v = v := by
  unfold pullVarF; rw [h]

theorem pullVarF_of_ambiguous (env : Env) (l : LoadedListing) (v : ProductVariant)
    (msg : String) (h : resolvePull env l = .ambiguous msg) : pullVarF env l v = v := by
  unfold pullVarF; rw [h]

theorem pullUnitMoves_pv (env : Env) (x : LoadedListing) (m : StockMovement)
    (hm : m ∈ pullUnitMoves env x) :
    ∃ pv, x.product_variant = some pv ∧ m.product_variant_id = pv.id := by
  unfold pullUnitMoves at hm
  cases hres : resolvePull env x with
  | skip => rw [hres] at hm; cases hm
  | ambiguous msg => rw [hres] at hm; cases hm
  | resolved pv q hl =>
    rw [hres] at hm
    by_cases hq : q == pv.stock_quantity
    · simp [hq] at hm
    · simp only [hq, Bool.false_eq_true, if_false, List.mem_singleton] at hm
      exact ⟨pv, resolvePull_pv env x pv q hl hres, by rw [hm]; rfl⟩

/-! ## Dispatch lemmas for the handler -/
theorem runSync_push (env : Env) (dirRaw : Option String) (s : Store)
    (hd : decodeDirection dirRaw = "push") :
    runSync env dirRaw s =
      .ok (runPush env s, mkReport "push" (loadListings s).length (runPush env s)) := by
  unfold runSync
  rw [hd]
  simp

theorem runSync_pull (env : Env) (dirRaw : Option String) (s : Store)
    (hd : decodeDirection dirRaw ≠ "push") (hb : env.batchFail = none) :
    runSync env dirRaw s =
      .ok (runPull env s,
        mkReport (decodeDirection dirRaw) (loadListings s).length (runPull env s)) := by
  unfold runSync
  simp only [beq_iff_eq, hd, if_false, hb]

theorem runSync_pull_fatal (env : Env) (dirRaw : Option String) (s : Store) (e : String)
    (hd : decodeDirection dirRaw ≠ "push") (hb : env.batchFail = some e) :
    runSync env dirRaw s = .error "Error sincronizando stock" := by
  unfold runSync
  simp only [beq_iff_eq, hd, if_false, hb]

/-- C10: when the request body's `direction` is absent or falsy the run
executes the push direction; any other value than the exact string
`"push"` (misspellings included) executes the pull direction; no direction
value is ever rejected — `runSync` always dispatches to one of the two
passes. -/
theorem c10_direction_decoding (env : Env) (s : Store) :
    decodeDirection none = "push"
  ∧ decodeDirection (some "") = "push"
  ∧ runSync env none s =
      .ok (runPush env s, mkReport "push" (loadListings s).length (runPush env s))
  ∧ runSync env (some "") s =
      .ok (runPush env s, mkReport "push" (loadListings s).length (runPush env s))
  ∧ (∀ d, d ≠ "" → d ≠ "push" →
      runSync env (some d) s =
        match env.batchFail with
        | some _ => Except.error "Error sincronizando stock"
        | none =>
          Except.ok (runPull env s, mkReport d (loadListings s).length (runPull env s))) := by
  refine ⟨rfl, rfl, runSync_push env none s rfl, runSync_push env (some "") s rfl, ?_⟩
  intro d hne hnp
  have hd : decodeDirection (some d) = d := by simp [decodeDirection, hne]
  cases hb : env.batchFail with
  | some e => rw [runSync_pull_fatal env (some d) s e (by rw [hd]; exact hnp) hb]
  | none => rw [runSync_pull env (some d) s (by rw [hd]; exact hnp) hb, hd]

/-- Witness for C10 at the misspelled direction string `"pusj"`. -/
theorem c10_witness :
    ("pusj" : String) ≠ "" ∧ ("pusj" : String) ≠ "push" ∧
    runSync c10wEnv (some "pusj") c10wStore =
      .ok (runPull c10wEnv c10wStore,
        mkReport "pusj" (loadListings c10wStore).length (runPull c10wEnv c10wStore)) := by
  refine ⟨by decide, by decide, ?_⟩
  exact (c10_direction_decoding c10wEnv c10wStore).2.2.2.2 "pusj" (by decide) (by decide)

/-- C9 counterexample: a completed run in which no unit failed returns a
report whose `errors` field is `none` (the source returns `undefined`,
dropped from the JSON), not the empty list the claim describes. -/
theorem c9_counterexample :
    runSync c9cEnv (some "push") c9cStore =
      .ok (runPush c9cEnv c9cStore,
        { success := true, synced := 0, total := 1, direction := "push", errors := none }) ∧
    (none : Option (List String)) ≠ some [] := by
  exact ⟨rfl, by decide⟩

/-- C9 (amended): the returned report carries the count of synchronized
units, the total count of candidate links, and the per-unit error list —
but the `errors` field is omitted (`none`) when no unit failed, and is the
nonempty error list otherwise. -/
theorem c9_report_shape (env : Env) (dirRaw : Option String) (s : Store)
    (st : RunState) (rep : SyncReport)
    (h : runSync env dirRaw s = .ok (st, rep)) :
    rep.success = true ∧ rep.synced = st.synced ∧ rep.total = (loadListings s).length ∧
    rep.direction = decodeDirection dirRaw ∧
    (st.errors = [] → rep.errors = none) ∧
    (st.errors ≠ [] → rep.errors = some st.errors) := by
  by_cases hd : decodeDirection dirRaw = "push"
  · rw [runSync_push env dirRaw s hd] at h
    simp only [Except.ok.injEq, Prod.mk.injEq] at h
    obtain ⟨hst, hrep⟩ := h
    subst hst
    subst hrep
    refine ⟨rfl, rfl, rfl, hd.symm, ?_, ?_⟩
    · intro he; simp [mkReport, he]
    · intro he
      have hlen := List.length_pos.mpr he
      simp [mkReport, hlen]
  · cases hb : env.batchFail with
    | some e => rw [runSync_pull_fatal env dirRaw s e hd hb] at h; cases h
    | none =>
      rw [runSync_pull env dirRaw s hd hb] at h
      simp only [Except.ok.injEq, Prod.mk.injEq] at h
      obtain ⟨hst, hrep⟩ := h
      subst hst
      subst hrep
      refine ⟨rfl, rfl, rfl, rfl, ?_, ?_⟩
      · intro he; simp [mkReport, he]
      · intro he
        have hlen := List.length_pos.mpr he
        simp [mkReport, hlen]

/-- Witness for C9: the amended report shape at a concrete clean push run. -/
theorem c9_witness :
    (mkReport "push" (loadListings c9cStore).length (runPush c9cEnv c9cStore)).success = true ∧
    (mkReport "push" (loadListings c9cStore).length (runPush c9cEnv c9cStore)).synced =
      (runPush c9cEnv c9cStore).synced ∧
    (mkReport "push" (loadListings c9cStore).length (runPush c9cEnv c9cStore)).total =
      (loadListings c9cStore).length ∧
    (mkReport "push" (loadListings c9cStore).length (runPush c9cEnv c9cStore)).direction =
      decodeDirection (some "push") ∧
    ((runPush c9cEnv c9cStore).errors = [] →
      (mkReport "push" (loadListings c9cStore).length (runPush c9cEnv c9cStore)).errors = none) ∧
    ((runPush c9cEnv c9cStore).errors ≠ [] →
      (mkReport "push" (loadListings c9cStore).length (runPush c9cEnv c9cStore)).errors =
        some (runPush c9cEnv c9cStore).errors) :=
  c9_report_shape c9cEnv (some "push") c9cStore _ _ (runSync_push c9cEnv (some "push") c9cStore rfl)

/-! ## Locating one listing inside a run -/
theorem mem_listings_of_mem_mlRows (s : Store) (r : ListingRow) (hr : r ∈ mlRows s) :
    r ∈ s.listings := (List.mem_filter.mp hr).1

/-- The no-collision facts extracted from a Nodup projection at a
decomposition point. -/
theorem nodup_split {β : Type} [DecidableEq β] (f : ListingRow → β)
    (A B : List ListingRow) (r : ListingRow)
    (hnd : ((A ++ r :: B).map f).Nodup) :
    (∀ a ∈ A, f r ≠ f a) ∧ (∀ b ∈ B, f r ≠ f b) := by
  rw [List.map_append, List.nodup_append] at hnd
  obtain ⟨hA, hrB, hdisj⟩ := hnd
  rw [List.map_cons, List.nodup_cons] at hrB
  constructor
  · intro a ha hfe
    exact hdisj (List.mem_map_of_mem f ha)
      (by rw [List.map_cons, ← hfe]; exact List.mem_cons_self _ _)
  · intro b hb hfe
    exact hrB.1 (hfe ▸ List.mem_map_of_mem f hb)

theorem runPull_row_find (env : Env) (s : Store) (r : ListingRow)
    (hr : r ∈ mlRows s)
    (hrowN : ((mlRows s).map (fun x => x.id)).Nodup)
    (hrowAll : (s.listings.map (fun x => x.id)).Nodup) :
    (runPull env s).store.listings.find? (fun x => x.id == r.id) =
      some (pullRowF env (joinListing s r) r) := by
  rw [runPull_listings,
    find?_map_pres (chainPullRowF env (loadListings s)) (fun x => x.id == r.id)
      (fun x => by simp [chainPullRowF_id]) s.listings]
  have hfind : s.listings.find? (fun x => x.id == r.id) = some r :=
    find?_eq_of_nodup_map (fun x => x.id) s.listings r hrowAll
      (mem_listings_of_mem_mlRows s r hr)
  rw [hfind]
  obtain ⟨A, B, hAB⟩ := List.append_of_mem hr
  rw [hAB] at hrowN
  obtain ⟨hA, hB⟩ := nodup_split (fun x => x.id) A B r hrowN
  have hload : loadListings s =
      A.map (joinListing s) ++ joinListing s r :: B.map (joinListing s) := by
    unfold loadListings
    rw [hAB]
    simp
  rw [hload, Option.map_some']
  exact congrArg some (chainPullRowF_middle env (A.map (joinListing s)) (joinListing s r)
    (B.map (joinListing s)) r
    (fun x hx => by
      obtain ⟨a, ha, rfl⟩ := List.mem_map.mp hx
      exact hA a ha)
    (fun x hx => by
      obtain ⟨b, hb, rfl⟩ := List.mem_map.mp hx
      exact hB b hb))

theorem runPush_row_find (env : Env) (s : Store) (r : ListingRow)
    (hr : r ∈ mlRows s)
    (hrowN : ((mlRows s).map (fun x => x.id)).Nodup)
    (hrowAll : (s.listings.map (fun x => x.id)).Nodup) :
    (runPush env s).store.listings.find? (fun x => x.id == r.id) =
      some (pushRowF env (joinListing s r) r) := by
  rw [runPush_listings,
    find?_map_pres (chainPushRowF env (loadListings s)) (fun x => x.id == r.id)
      (fun x => by simp [chainPushRowF_id]) s.listings]
  have hfind : s.listings.find? (fun x => x.id == r.id) = some r :=
    find?_eq_of_nodup_map (fun x => x.id) s.listings r hrowAll
      (mem_listings_of_mem_mlRows s r hr)
  rw [hfind]
  obtain ⟨A, B, hAB⟩ := List.append_of_mem hr
  rw [hAB] at hrowN
  obtain ⟨hA, hB⟩ := nodup_split (fun x => x.id) A B r hrowN
  have hload : loadListings s =
      A.map (joinListing s) ++ joinListing s r :: B.map (joinListing s) := by
    unfold loadListings
    rw [hAB]
    simp
  rw [hload, Option.map_some']
  exact congrArg some (chainPushRowF_middle env (A.map (joinListing s)) (joinListing s r)
    (B.map (joinListing s)) r
    (fun x hx => by
      obtain ⟨a, ha, rfl⟩ := List.mem_map.mp hx
      exact hA a ha)
    (fun x hx => by
      obtain ⟨b, hb, rfl⟩ := List.mem_map.mp hx
      exact hB b hb))

theorem runPull_var_find (env : Env) (s : Store) (r : ListingRow) (pv : ProductVariant)
    (hr : r ∈ mlRows s)
    (hpv : (joinListing s r).product_variant = some pv)
    (hvarN : ((mlRows s).map (fun x => x.product_variant_id)).Nodup) :
    (runPull env s).store.variants.find? (fun v => v.id == pv.id) =
      some (pullVarF env (joinListing s r) pv) := by
  rw [runPull_variants,
    find?_map_pres (chainPullVarF env (loadListings s)) (fun v => v.id == pv.id)
      (fun v => by simp [chainPullVarF_id]) s.variants]
  have hpid : pv.id = r.product_variant_id := joinListing_pv s r pv hpv
  have hfind : s.variants.find? (fun v => v.id == pv.id) = some pv := by
    have h2 : s.variants.find? (fun v => v.id == r.product_variant_id) = some pv := hpv
    rw [hpid]
    exact h2
  rw [hfind]
  obtain ⟨A, B, hAB⟩ := List.append_of_mem hr
  rw [hAB] at hvarN
  obtain ⟨hA, hB⟩ := nodup_split (fun x => x.product_variant_id) A B r hvarN
  have hload : loadListings s =
      A.map (joinListing s) ++ joinListing s r :: B.map (joinListing s) := by
    unfold loadListings
    rw [hAB]
    simp
  rw [hload, Option.map_some']
  exact congrArg some (chainPullVarF_middle env (A.map (joinListing s)) (joinListing s r)
    (B.map (joinListing s)) pv
    (fun x hx pv2 hpv2 => by
      obtain ⟨a, ha, rfl⟩ := List.mem_map.mp hx
      rw [hpid, joinListing_pv s a pv2 hpv2]
      exact hA a ha)
    (fun x hx pv2 hpv2 => by
      obtain ⟨b, hb, rfl⟩ := List.mem_map.mp hx
      rw [hpid, joinListing_pv s b pv2 hpv2]
      exact hB b hb))

/-- Pull movements of other listings never target this unit. -/
theorem runPull_moves_filter (env : Env) (s : Store) (r : ListingRow) (pv : ProductVariant)
    (hr : r ∈ mlRows s)
    (hpv : (joinListing s r).product_variant = some pv)
    (hvarN : ((mlRows s).map (fun x => x.product_variant_id)).Nodup) :
    (runPull env s).store.movements.filter (fun m => m.product_variant_id == pv.id) =
      s.movements.filter (fun m => m.product_variant_id == pv.id)
        ++ pullUnitMoves env (joinListing s r) := by
  rw [runPull_movements, List.filter_append]
  congr 1
  have hpid : pv.id = r.product_variant_id := joinListing_pv s r pv hpv
  obtain ⟨A, B, hAB⟩ := List.append_of_mem hr
  rw [hAB] at hvarN
  obtain ⟨hA, hB⟩ := nodup_split (fun x => x.product_variant_id) A B r hvarN
  have hload : loadListings s =
      A.map (joinListing s) ++ joinListing s r :: B.map (joinListing s) := by
    unfold loadListings
    rw [hAB]
    simp
  rw [hload]
  have hdrop : ∀ (C : List ListingRow), (∀ c ∈ C, r.product_variant_id ≠ c.product_variant_id) →
      ((C.map (joinListing s)).flatMap (pullUnitMoves env)).filter
        (fun m => m.product_variant_id == pv.id) = [] := by
    intro C hC
    rw [List.filter_eq_nil_iff]
    intro m hm
    obtain ⟨x, hx, hmx⟩ := List.mem_flatMap.mp hm
    obtain ⟨c, hc, rfl⟩ := List.mem_map.mp hx
    obtain ⟨pv2, hpv2, hmid⟩ := pullUnitMoves_pv env (joinListing s c) m hmx
    have : pv2.id = c.product_variant_id := joinListing_pv s c pv2 hpv2
    simp only [beq_iff_eq, hmid, this, hpid]
    exact fun h => hC c hc h.symm
  have hkeep : (pullUnitMoves env (joinListing s r)).filter
      (fun m => m.product_variant_id == pv.id) = pullUnitMoves env (joinListing s r) := by
    rw [List.filter_eq_self]
    intro m hm
    obtain ⟨pv2, hpv2, hmid⟩ := pullUnitMoves_pv env (joinListing s r) m hm
    rw [hpv] at hpv2
    cases hpv2
    simp [hmid]
  simp only [List.flatMap_append, List.flatMap_cons, List.filter_append]
  rw [hdrop A hA, hkeep, hdrop B hB]
  simp

/-- The movement inserted by the pull branch has, under the uniform
reading of the two ledger fields, exactly the signed delta new − old. -/
theorem signedDelta_syncMovement (pvId : String) (oldQ newQ : Int) :
    signedDelta (syncMovement pvId oldQ newQ) = newQ - oldQ := by
  unfold signedDelta syncMovement
  by_cases h : newQ > oldQ
  · have habs : |newQ - oldQ| = newQ - oldQ := abs_of_pos (by omega)
    simp only [h, if_true]
    have : (("IN" : String) == "OUT") = false := by decide
    rw [this]
    simp only [Bool.false_eq_true, if_false, habs]
    rw [Int.natAbs_of_nonneg (by omega)]
  · have habs : |newQ - oldQ| = oldQ - newQ := by
      rcases lt_or_eq_of_le (not_lt.mp h) with h2 | h2
      · rw [abs_of_neg (by omega)]; ring
      · rw [h2]; simp
    simp only [h, if_false]
    have : (("OUT" : String) == "OUT") = true := by decide
    rw [this]
    simp only [if_true, habs]
    rw [Int.natAbs_of_nonneg (by omega)]
    omega

/-! ## Claim C2 -/
/-- C2: for a linked unit resolved by a pull run, if the resolved remote
quantity differs from the local quantity the run stores the remote value
locally, appends exactly one `sync` movement whose signed delta (in the
uniform reading of the two ledger fields) is remote − local computed on
the pre-update value, and stamps the listing's `stock_synced` and
`last_sync_at`; if the quantities are equal none of these writes occur and
the unit is not counted as synced. -/
theorem c2_pull_reconciliation (env : Env) (s : Store) (r : ListingRow)
    (pv : ProductVariant) (mlStock : Int) (heal : Option String)
    (hr : r ∈ mlRows s)
    (hpv : (joinListing s r).product_variant = some pv)
    (hres : resolvePull env (joinListing s r) = .resolved pv mlStock heal)
    (hrowN : ((mlRows s).map (fun x => x.id)).Nodup)
    (hrowAll : (s.listings.map (fun x => x.id)).Nodup)
    (hvarN : ((mlRows s).map (fun x => x.product_variant_id)).Nodup) :
    (mlStock ≠ pv.stock_quantity →
        ((runPull env s).store.variants.find? (fun v => v.id == pv.id)).map
            (fun v => v.stock_quantity) = some mlStock
      ∧ (runPull env s).store.movements.filter (fun m => m.product_variant_id == pv.id) =
          s.movements.filter (fun m => m.product_variant_id == pv.id)
            ++ [syncMovement pv.id pv.stock_quantity mlStock]
      ∧ signedDelta (syncMovement pv.id pv.stock_quantity mlStock) =
          mlStock - pv.stock_quantity
      ∧ (syncMovement pv.id pv.stock_quantity mlStock).reference_type = "sync"
      ∧ ((runPull env s).store.listings.find? (fun x => x.id == r.id)).map
            (fun x => (x.stock_synced, x.last_sync_at)) = some (mlStock, some env.now)
      ∧ pullUnitSynced env (joinListing s r) = true)
  ∧ (mlStock = pv.stock_quantity →
        ((runPull env s).store.variants.find? (fun v => v.id == pv.id)).map
            (fun v => v.stock_quantity) = some pv.stock_quantity
      ∧ (runPull env s).store.movements.filter (fun m => m.product_variant_id == pv.id) =
          s.movements.filter (fun m => m.product_variant_id == pv.id)
      ∧ ((runPull env s).store.listings.find? (fun x => x.id == r.id)).map
            (fun x => (x.stock_synced, x.last_sync_at)) =
          (s.listings.find? (fun x => x.id == r.id)).map
            (fun x => (x.stock_synced, x.last_sync_at))
      ∧ pullUnitSynced env (joinListing s r) = false) := by
  have hrowfind := runPull_row_find env s r hr hrowN hrowAll
  have hvarfind := runPull_var_find env s r pv hr hpv hvarN
  have hmoves := runPull_moves_filter env s r pv hr hpv hvarN
  have hrowid : (joinListing s r).row = r := rfl
  constructor
  · intro hne
    have hq : (mlStock == pv.stock_quantity) = false := by simp [hne]
    refine ⟨?_, ?_, signedDelta_syncMovement pv.id pv.stock_quantity mlStock, rfl, ?_, ?_⟩
    · rw [hvarfind]
      have : pullVarF env (joinListing s r) pv = { pv with stock_quantity := mlStock } := by
        unfold pullVarF
        rw [hres]
        simp [hq]
      rw [this]
      rfl
    · rw [hmoves]
      have : pullUnitMoves env (joinListing s r) =
          [syncMovement pv.id pv.stock_quantity mlStock] := by
        unfold pullUnitMoves
        rw [hres]
        simp [hq]
      rw [this]
    · rw [hrowfind]
      have : (pullRowF env (joinListing s r) r).stock_synced = mlStock ∧
          (pullRowF env (joinListing s r) r).last_sync_at = some env.now := by
        unfold pullRowF
        rw [hrowid, hres]
        cases heal <;> simp [hq]
      simp [this.1, this.2]
    · unfold pullUnitSynced
      rw [hres]
      simp [hq]
  · intro heq
    have hq : (mlStock == pv.stock_quantity) = true := by simp [heq]
    refine ⟨?_, ?_, ?_, ?_⟩
    · rw [hvarfind]
      have : pullVarF env (joinListing s r) pv = pv := by
        unfold pullVarF
        rw [hres]
        simp [hq]
      rw [this]
      rfl
    · rw [hmoves]
      have : pullUnitMoves env (joinListing s r) = [] := by
        unfold pullUnitMoves
        rw [hres]
        simp [hq]
      rw [this]
      simp
    · rw [hrowfind]
      have hfound : s.listings.find? (fun x => x.id == r.id) = some r :=
        find?_eq_of_nodup_map (fun x => x.id) s.listings r hrowAll
          (mem_listings_of_mem_mlRows s r hr)
      rw [hfound]
      have : (pullRowF env (joinListing s r) r).stock_synced = r.stock_synced ∧
          (pullRowF env (joinListing s r) r).last_sync_at = r.last_sync_at := by
        unfold pullRowF
        rw [hrowid, hres]
        cases heal <;> simp [hq]
      simp [this.1, this.2]
    · unfold pullUnitSynced
      rw [hres]
      simp [hq]

/-- Witness for C2: local 10, remote 7 — the pull run stores 7 locally,
appends the one `sync` movement whose stored row is `(OUT, 3)` and whose
signed delta is −3, and stamps the listing. -/
theorem c2_witness :
    ((runPull c2Env c2Store).store.variants.find? (fun v => v.id == "v1")).map
        (fun v => v.stock_quantity) = some 7 ∧
    (runPull c2Env c2Store).store.movements.filter (fun m => m.product_variant_id == "v1") =
      [syncMovement "v1" 10 7] ∧
    signedDelta (syncMovement "v1" 10 7) = 7 - 10 ∧
    (syncMovement "v1" 10 7).movement_type = "OUT" ∧
    (syncMovement "v1" 10 7).quantity = 3 ∧
    ((runPull c2Env c2Store).store.listings.find? (fun x => x.id == "L1")).map
        (fun x => (x.stock_synced, x.last_sync_at)) = some ((7 : Int), some 7) ∧
    pullUnitSynced c2Env (joinListing c2Store c2Row) = true := by
  have h := (c2_pull_reconciliation c2Env c2Store c2Row
    { id := "v1", stock_quantity := 10, sku := some "SKU1" } 7 none
    (by decide) rfl rfl (by decide) (by decide) (by decide)).1 (by decide)
  obtain ⟨h1, h2, h3, _, h5, h6⟩ := h
  refine ⟨h1, by rw [h2]; rfl, h3, rfl, rfl, h5, h6⟩

/-! ## Claim C3 -/
theorem ledgerSum_append (a b : List StockMovement) (vid : String) :
    ledgerSum (a ++ b) vid = ledgerSum a vid + ledgerSum b vid := by
  simp [ledgerSum, List.filter_append]

theorem mlRows_runPull (env : Env) (s : Store) :
    mlRows (runPull env s).store = (mlRows s).map (chainPullRowF env (loadListings s)) := by
  unfold mlRows
  rw [runPull_listings]
  exact filter_platform_map s.listings _ (chainPullRowF_platform env (loadListings s))

theorem runPull_mlRows_pvids (env : Env) (s : Store) :
    (mlRows (runPull env s).store).map (fun x => x.product_variant_id) =
      (mlRows s).map (fun x => x.product_variant_id) := by
  rw [mlRows_runPull, List.map_map]
  exact List.map_congr_left (fun r _ => chainPullRowF_pvid env (loadListings s) r)

theorem runPull_variant_ids (env : Env) (s : Store) :
    (runPull env s).store.variants.map (fun v => v.id) = s.variants.map (fun v => v.id) := by
  rw [runPull_variants, List.map_map]
  exact List.map_congr_left (fun v _ => chainPullVarF_id env (loadListings s) v)

theorem updateLocalStock_listings (s : Store) (vid : String) (q : Int) (sn : String) :
    (updateLocalStock s vid q sn).listings = s.listings := by
  unfold updateLocalStock
  by_cases h : (vid == "")
  · simp [h]
  · cases hf : s.variants.find? (fun v => v.id == vid) <;> simp [h, hf]

theorem updateLocalStock_variant_ids (s : Store) (vid : String) (q : Int) (sn : String) :
    (updateLocalStock s vid q sn).variants.map (fun v => v.id) =
      s.variants.map (fun v => v.id) := by
  unfold updateLocalStock
  by_cases h : (vid == "")
  · simp [h]
  · cases hf : s.variants.find? (fun v => v.id == vid) with
    | none => simp [h, hf]
    | some v1 =>
      simp only [h, Bool.false_eq_true, if_false, hf]
      rw [updVariantStock, List.map_map]
      refine List.map_congr_left (fun v _ => ?_)
      simp only [Function.comp]
      split <;> rfl

/-- A pull run preserves the ledger-consistency invariant (given the data
model's uniqueness assumptions: one Listing Link per unit, unique row and
variant identifiers). -/
theorem pull_preserves_LedgerInv (env : Env) (s : Store) (initQ : String → Int)
    (hvarN : ((mlRows s).map (fun x => x.product_variant_id)).Nodup)
    (hvars : (s.variants.map (fun v => v.id)).Nodup)
    (h0 : LedgerInv initQ s) : LedgerInv initQ (runPull env s).store := by
  intro v2 hv2
  rw [runPull_variants] at hv2
  obtain ⟨v, hv, rfl⟩ := List.mem_map.mp hv2
  rw [chainPullVarF_id]
  by_cases hmem : ∃ r ∈ mlRows s, r.product_variant_id = v.id
  · obtain ⟨r, hr, hrid⟩ := hmem
    have hpv : (joinListing s r).product_variant = some v := by
      show s.variants.find? (fun w => w.id == r.product_variant_id) = some v
      rw [hrid]
      exact find?_eq_of_nodup_map (fun w => w.id) s.variants v hvars hv
    have hmovf := runPull_moves_filter env s r v hr hpv hvarN
    have hchain : chainPullVarF env (loadListings s) v =
        pullVarF env (joinListing s r) v := by
      obtain ⟨A, B, hAB⟩ := List.append_of_mem hr
      have hvarN2 := hvarN
      rw [hAB] at hvarN2
      obtain ⟨hA, hB⟩ := nodup_split (fun x => x.product_variant_id) A B r hvarN2
      have hload : loadListings s =
          A.map (joinListing s) ++ joinListing s r :: B.map (joinListing s) := by
        unfold loadListings
        rw [hAB]
        simp
      rw [hload]
      exact chainPullVarF_middle env _ _ _ v
        (fun x hx pv2 hpv2 => by
          obtain ⟨a, ha, rfl⟩ := List.mem_map.mp hx
          rw [← hrid, joinListing_pv s a pv2 hpv2]
          exact hA a ha)
        (fun x hx pv2 hpv2 => by
          obtain ⟨b, hb, rfl⟩ := List.mem_map.mp hx
          rw [← hrid, joinListing_pv s b pv2 hpv2]
          exact hB b hb)
    rw [hchain]
    unfold ledgerSum
    rw [hmovf, List.map_append, List.sum_append]
    cases hres : resolvePull env (joinListing s r) with
    | skip =>
      rw [pullVarF_of_skip env _ v hres]
      have : pullUnitMoves env (joinListing s r) = [] := by
        unfold pullUnitMoves; rw [hres]
      rw [this]
      simpa [ledgerSum] using h0 v hv
    | ambiguous msg =>
      rw [pullVarF_of_ambiguous env _ v msg hres]
      have : pullUnitMoves env (joinListing s r) = [] := by
        unfold pullUnitMoves; rw [hres]
      rw [this]
      simpa [ledgerSum] using h0 v hv
    | resolved pv2 q heal =>
      have hpveq : pv2 = v := by
        have h2 := resolvePull_pv env _ pv2 q heal hres
        rw [hpv] at h2
        exact (Option.some.injEq _ _).mp h2.symm
      subst hpveq
      by_cases hq : (q == pv2.stock_quantity)
      · have hVF : pullVarF env (joinListing s r) pv2 = pv2 := by
          unfold pullVarF; rw [hres]; simp [hq]
        have hM : pullUnitMoves env (joinListing s r) = [] := by
          unfold pullUnitMoves; rw [hres]; simp [hq]
        rw [hVF, hM]
        simpa [ledgerSum] using h0 pv2 hv
      · have hVF : pullVarF env (joinListing s r) pv2 =
            { pv2 with stock_quantity := q } := by
          unfold pullVarF; rw [hres]; simp [hq]
        have hM : pullUnitMoves env (joinListing s r) =
            [syncMovement pv2.id pv2.stock_quantity q] := by
          unfold pullUnitMoves; rw [hres]; simp [hq]
        rw [hVF, hM]
        have h00 := h0 pv2 hv
        unfold ledgerSum at h00
        have hd := signedDelta_syncMovement pv2.id pv2.stock_quantity q
        simp only [List.map_cons, List.map_nil, List.sum_cons, List.sum_nil, hd]
        omega
  · push_neg at hmem
    have hchain : chainPullVarF env (loadListings s) v = v := by
      apply chainPullVarF_other
      intro x hx pv hpv
      obtain ⟨a, ha, rfl⟩ := List.mem_map.mp hx
      rw [joinListing_pv s a pv hpv]
      exact fun he => hmem a ha he.symm
    have hzero : ((loadListings s).flatMap (pullUnitMoves env)).filter
        (fun m => m.product_variant_id == v.id) = [] := by
      rw [List.filter_eq_nil_iff]
      intro m hm
      obtain ⟨x, hx, hmx⟩ := List.mem_flatMap.mp hm
      obtain ⟨a, ha, rfl⟩ := List.mem_map.mp hx
      obtain ⟨pv2, hpv2, hmid⟩ := pullUnitMoves_pv env (joinListing s a) m hmx
      have hid2 : pv2.id = a.product_variant_id := joinListing_pv s a pv2 hpv2
      simp only [beq_iff_eq, hmid, hid2]
      exact hmem a ha
    rw [hchain, runPull_movements, ledgerSum_append]
    have : ledgerSum ((loadListings s).flatMap (pullUnitMoves env)) v.id = 0 := by
      unfold ledgerSum
      rw [hzero]
      rfl
    rw [this]
    have := h0 v hv
    omega

/-- An order-import sale decrement preserves the ledger-consistency
invariant. -/
theorem sale_preserves_LedgerInv (s : Store) (initQ : String → Int)
    (vid : String) (q : Int) (sn : String)
    (hvars : (s.variants.map (fun v => v.id)).Nodup)
    (hq : 0 ≤ q) (h0 : LedgerInv initQ s) :
    LedgerInv initQ (updateLocalStock s vid q sn) := by
  unfold updateLocalStock
  by_cases h : (vid == "")
  · simpa [h] using h0
  · cases hf : s.variants.find? (fun v => v.id == vid) with
    | none => simpa [h, hf] using h0
    | some v1 =>
      simp only [h, Bool.false_eq_true, if_false, hf]
      intro v2 hv2
      simp only [updVariantStock, List.mem_map] at hv2
      obtain ⟨v, hv, rfl⟩ := hv2
      rw [ledgerSum_append]
      have h00 := h0 v hv
      by_cases hvid : (v.id == vid)
      · have hvv : v.id = vid := by simpa using hvid
        have hveq : v1 = v := by
          have hfind2 : s.variants.find? (fun y => y.id == v.id) = some v :=
            find?_eq_of_nodup_map (fun w => w.id) s.variants v hvars hv
          rw [hvv, hf] at hfind2
          exact (Option.some.injEq _ _).mp hfind2
        subst hveq
        have hsingle : ledgerSum
            [{ product_variant_id := vid, movement_type := "OUT", quantity := -q,
               reference_type := "sale", notes := "Venta ML #" ++ sn }] v1.id = -q := by
          unfold ledgerSum signedDelta
          have hkeep : ((vid : String) == v1.id) = true := by simp [hvv]
          simp only [List.filter_cons, List.filter_nil, hkeep, if_true, List.map_cons,
            List.map_nil, List.sum_cons, List.sum_nil]
          have hout : (("OUT" : String) == "OUT") = true := by decide
          rw [hout]
          simp only [if_true]
          omega
        simp only [hvid, if_true]
        simp only [hvid, if_true] at hsingle
        rw [hsingle]
        omega
      · simp only [hvid, Bool.false_eq_true, if_false]
        have hzero : ledgerSum
            [{ product_variant_id := vid, movement_type := "OUT", quantity := -q,
               reference_type := "sale", notes := "Venta ML #" ++ sn }] v.id = 0 := by
          unfold ledgerSum
          have hne : v.id ≠ vid := by simpa using hvid
          have hdrop : ((vid : String) == v.id) = false :=
            beq_eq_false_iff_ne.mpr (fun he => hne he.symm)
          simp [hdrop]
        rw [hzero]
        omega

/-- C3: after any sequence of core-performed mutations (pull
reconciliations and order-import sale decrements), every variant's initial
quantity plus the sum of the signed deltas of its movements equals its
stored quantity. -/
theorem c3_ledger_consistency (initQ : String → Int) (s0 : Store) (ops : List CoreOp)
    (h0 : LedgerInv initQ s0)
    (hvarN : ((mlRows s0).map (fun x => x.product_variant_id)).Nodup)
    (hvars : (s0.variants.map (fun v => v.id)).Nodup)
    (hops : ∀ op ∈ ops, opSaleNonneg op) :
    LedgerInv initQ (applyOps s0 ops) := by
  induction ops generalizing s0 with
  | nil => exact h0
  | cons op ops ih =>
    have hstep : applyOps s0 (op :: ops) = applyOps (applyOp s0 op) ops := rfl
    rw [hstep]
    cases op with
    | pull env =>
      exact ih ((runPull env s0).store)
        (pull_preserves_LedgerInv env s0 initQ hvarN hvars h0)
        (by rw [runPull_mlRows_pvids]; exact hvarN)
        (by rw [runPull_variant_ids]; exact hvars)
        (fun o ho => hops o (List.mem_cons_of_mem _ ho))
    | sale vid q sn =>
      have hq : 0 ≤ q := hops (.sale vid q sn) (List.mem_cons_self _ _)
      exact ih (updateLocalStock s0 vid q sn)
        (sale_preserves_LedgerInv s0 initQ vid q sn hvars hq h0)
        (by unfold mlRows; rw [updateLocalStock_listings]; exact hvarN)
        (by rw [updateLocalStock_variant_ids]; exact hvars)
        (fun o ho => hops o (List.mem_cons_of_mem _ ho))

/-- Witness for C3: a pull reconciliation 10 → 7 followed by a sale of 2
leaves the stored quantity at 5, and the ledger reconstruction
10 + Σ(signed deltas) = 10 + (−3) + (−2) agrees with it. -/
theorem c3_witness :
    (applyOps c3Store c3ops).variants.map (fun v => v.stock_quantity) = [5] ∧
    ledgerSum (applyOps c3Store c3ops).movements "v1" = -5 ∧
    LedgerInv c3init (applyOps c3Store c3ops) := by
  refine ⟨rfl, by decide, c3_ledger_consistency c3init c3Store c3ops ?_ (by decide) (by decide) ?_⟩
  · unfold LedgerInv
    decide
  · intro op hop
    rcases List.mem_cons.mp hop with rfl | h2
    · exact trivial
    · rcases List.mem_cons.mp h2 with rfl | h3
      · show (0 : Int) ≤ 2
        decide
      · cases h3

/-- C6 counterexample: a Listing Link whose stored variation id `999` is
not among the item's variations (and the item still has variations) is
skipped with local stock unchanged — but, contrary to the claim, **no
error is emitted**: the run ends with an empty error accumulator and a
report with no errors field. -/
theorem c6_counterexample :
    (runPull c6Env c6Store).errors = [] ∧
    (runPull c6Env c6Store).store = c6Store ∧
    (runPull c6Env c6Store).synced = 0 ∧
    (mkReport "pull" 1 (runPull c6Env c6Store)).errors = none := by
  exact ⟨rfl, rfl, rfl, rfl⟩

/-- C6 (amended): for a Listing Link whose remote variation id is already
set, pull resolution looks it up in the item's variations by string
equality — found gives that variation's quantity, not-found with zero
variations falls back to the item-level quantity, and not-found while the
item still has variations **silently** skips the unit: its step is a
no-op (local stock untouched, never zeroed) and, contrary to the original
claim, no error is recorded for it. -/
theorem c6_set_variation_resolution (env : Env) (l : LoadedListing)
    (pv : ProductVariant) (eid : String) (it : MLItem) (evid : String)
    (hpv : l.product_variant = some pv)
    (heid : l.row.external_id = some eid) (hee : eid ≠ "")
    (hit : remoteLookup env eid = some it)
    (hev : l.row.external_variant_id = some evid) (hevne : evid ≠ "") :
    (∀ v, (varList it).find? (fun w => toString w.id == evid) = some v →
        resolvePull env l = .resolved pv v.available_quantity none)
  ∧ ((varList it).find? (fun w => toString w.id == evid) = none → varList it = [] →
        resolvePull env l = .resolved pv it.available_quantity none)
  ∧ ((varList it).find? (fun w => toString w.id == evid) = none → varList it ≠ [] →
        resolvePull env l = .skip
      ∧ (∀ st, pullStep env st l = st)
      ∧ pullUnitErrors env l = []
      ∧ pullUnitSynced env l = false) := by
  have hset := resolvePull_set env l pv eid it evid hpv heid hee hit hev hevne
  refine ⟨?_, ?_, ?_⟩
  · intro v hf
    rw [hset]
    exact resolveSet_found pv it evid v hf
  · intro hf hz
    rw [hset]
    exact resolveSet_fallback pv it evid hf hz
  · intro hf hz
    have hskip : resolvePull env l = .skip := by
      rw [hset]
      exact resolveSet_stale pv it evid hf hz
    exact ⟨hskip, fun st => pullStep_of_skip env st l hskip,
      pullUnitErrors_of_skip env l hskip,
      by unfold pullUnitSynced; rw [hskip]⟩

/-- Witness for C6: the stale-variation arm at the concrete
counterexample instance — resolution is a silent skip. -/
theorem c6_witness :
    resolvePull c6Env (joinListing c6Store c6Row) = .skip ∧
    pullStep c6Env (initState c6Store) (joinListing c6Store c6Row) = initState c6Store ∧
    pullUnitErrors c6Env (joinListing c6Store c6Row) = [] ∧
    pullUnitSynced c6Env (joinListing c6Store c6Row) = false := by
  have h := (c6_set_variation_resolution c6Env (joinListing c6Store c6Row)
    { id := "v1", stock_quantity := 5, sku := none } "MLA300"
    { id := "MLA300", available_quantity := 50,
      variations := some [{ id := 181, available_quantity := 4,
                            seller_custom_field := none }] } "999"
    rfl rfl (by decide) rfl rfl (by decide)).2.2 rfl (by decide)
  exact ⟨h.1, h.2.1 (initState c6Store), h.2.2.1, h.2.2.2⟩

/-! ## Claim C1 -/
/-- C1: for a Listing Link with no remote variation id, whose remote item
has variations, and whose local stock-keeping code matches no variation by
exact custom-field equality nor by substring containment of a variation
id, the pull run records the explanatory per-unit error and skips the
unit: its local stock, its listing row, its slice of the movement ledger
and the entire remote side (no remote write is ever issued by a pull run)
are unchanged after the whole run, and the unit is not counted as synced —
the run never defaults to the first variation or the item-level total. -/
theorem c1_ambiguous_no_mutation (env : Env) (s : Store) (r : ListingRow)
    (pv : ProductVariant) (eid : String) (it : MLItem)
    (hr : r ∈ mlRows s)
    (hpv : (joinListing s r).product_variant = some pv)
    (heid : r.external_id = some eid) (hee : eid ≠ "")
    (hit : remoteLookup env eid = some it)
    (hev : truthy r.external_variant_id = false)
    (hvs : varList it ≠ [])
    (hm : recoverVariation pv.sku (varList it) = none)
    (hrowN : ((mlRows s).map (fun x => x.id)).Nodup)
    (hrowAll : (s.listings.map (fun x => x.id)).Nodup)
    (hvarN : ((mlRows s).map (fun x => x.product_variant_id)).Nodup) :
    ("Saltado " ++ eid ++ ": Requiere vinculación manual de variante") ∈ (runPull env s).errors
  ∧ (runPull env s).writes = []
  ∧ (runPull env s).store.variants.find? (fun v => v.id == pv.id) =
      s.variants.find? (fun v => v.id == pv.id)
  ∧ (runPull env s).store.listings.find? (fun x => x.id == r.id) =
      s.listings.find? (fun x => x.id == r.id)
  ∧ (runPull env s).store.movements.filter (fun m => m.product_variant_id == pv.id) =
      s.movements.filter (fun m => m.product_variant_id == pv.id)
  ∧ pullUnitSynced env (joinListing s r) = false := by
  have hres : resolvePull env (joinListing s r) =
      .ambiguous ("Saltado " ++ eid ++ ": Requiere vinculación manual de variante") := by
    rw [resolvePull_unset env (joinListing s r) pv eid it hpv heid hee hit hev]
    exact resolveUnset_nomatch eid pv it hvs hm
  refine ⟨?_, runPull_writes env s, ?_, ?_, ?_, ?_⟩
  · rw [runPull_errors]
    refine List.mem_flatMap.mpr ⟨joinListing s r, ?_, ?_⟩
    · exact List.mem_map_of_mem (joinListing s) hr
    · rw [pullUnitErrors_of_ambiguous env _ _ hres]
      exact List.mem_singleton.mpr rfl
  · rw [runPull_var_find env s r pv hr hpv hvarN,
      pullVarF_of_ambiguous env _ pv _ hres]
    have hpid : pv.id = r.product_variant_id := joinListing_pv s r pv hpv
    have h2 : s.variants.find? (fun v => v.id == r.product_variant_id) = some pv := hpv
    rw [hpid, h2]
  · rw [runPull_row_find env s r hr hrowN hrowAll,
      pullRowF_of_ambiguous env _ r _ hres,
      find?_eq_of_nodup_map (fun x => x.id) s.listings r hrowAll
        (mem_listings_of_mem_mlRows s r hr)]
  · rw [runPull_moves_filter env s r pv hr hpv hvarN]
    have : pullUnitMoves env (joinListing s r) = [] := by
      unfold pullUnitMoves; rw [hres]
    rw [this]
    simp
  · unfold pullUnitSynced
    rw [hres]

/-- Witness for C1: a variant with sku `"NOMATCH"` against variations
`181`/`282` — skipped with the explanatory error and no mutation. -/
theorem c1_witness :
    ("Saltado " ++ "MLA400" ++ ": Requiere vinculación manual de variante") ∈
      (runPull c1Env c1Store).errors ∧
    (runPull c1Env c1Store).writes = [] ∧
    (runPull c1Env c1Store).store.variants.find? (fun v => v.id == "v1") =
      c1Store.variants.find? (fun v => v.id == "v1") ∧
    (runPull c1Env c1Store).store.listings.find? (fun x => x.id == "L1") =
      c1Store.listings.find? (fun x => x.id == "L1") ∧
    pullUnitSynced c1Env (joinListing c1Store c1Row) = false := by
  have h := c1_ambiguous_no_mutation c1Env c1Store c1Row
    { id := "v1", stock_quantity := 8, sku := some "NOMATCH" } "MLA400"
    { id := "MLA400", available_quantity := 30,
      variations := some
        [{ id := 181, available_quantity := 4, seller_custom_field := some "OTHER" },
         { id := 282, available_quantity := 6, seller_custom_field := none }] }
    (by decide) rfl rfl (by decide) rfl rfl (by decide) (by decide)
    (by decide) (by decide) (by decide)
  exact ⟨h.1, h.2.1, h.2.2.1, h.2.2.2.1, h.2.2.2.2.2⟩

/-! ## Claim C7 -/
theorem recoverVariation_mem (sku : Option String) (vs : List MLVariation)
    (v : MLVariation) (h : recoverVariation sku vs = some v) : v ∈ vs := by
  unfold recoverVariation at h
  cases sku with
  | none => cases h
  | some s =>
    dsimp only at h
    by_cases hs : (s == "")
    · rw [if_pos hs] at h; cases h
    · rw [if_neg hs] at h
      cases hf : vs.find? (fun w => w.seller_custom_field == some s) with
      | some w =>
        rw [hf] at h
        cases h
        exact List.mem_of_find?_eq_some hf
      | none =>
        rw [hf] at h
        exact List.mem_of_find?_eq_some h

/-- C7: a Listing Link with unset remote variation id that is recovered by
the SKU heuristics has the discovered variation id persisted on its stored
row during the pull run, and the re-joined listing of the updated store
resolves directly (no re-matching, no heal write) to that same variation's
quantity in any subsequent run. -/
theorem c7_self_healing (env : Env) (s : Store) (r : ListingRow)
    (pv : ProductVariant) (eid : String) (it : MLItem) (v : MLVariation)
    (hr : r ∈ mlRows s)
    (hpv : (joinListing s r).product_variant = some pv)
    (heid : r.external_id = some eid) (hee : eid ≠ "")
    (hit : remoteLookup env eid = some it)
    (hev : truthy r.external_variant_id = false)
    (hvs : varList it ≠ [])
    (hm : recoverVariation pv.sku (varList it) = some v)
    (hrowN : ((mlRows s).map (fun x => x.id)).Nodup)
    (hrowAll : (s.listings.map (fun x => x.id)).Nodup)
    (hids : ((varList it).map (fun w => toString w.id)).Nodup) :
    (runPull env s).store.listings.find? (fun x => x.id == r.id) =
      some (pullRowF env (joinListing s r) r)
  ∧ (pullRowF env (joinListing s r) r).external_variant_id = some (toString v.id)
  ∧ resolvePull env
      (joinListing (runPull env s).store (pullRowF env (joinListing s r) r)) =
      .resolved (chainPullVarF env (loadListings s) pv) v.available_quantity none := by
  have hres : resolvePull env (joinListing s r) =
      .resolved pv v.available_quantity (some (toString v.id)) := by
    rw [resolvePull_unset env (joinListing s r) pv eid it hpv heid hee hit hev]
    exact resolveUnset_match eid pv it v hvs hm
  have hrowid : (joinListing s r).row = r := rfl
  have hevid : (pullRowF env (joinListing s r) r).external_variant_id =
      some (toString v.id) := by
    unfold pullRowF
    rw [hrowid, hres]
    by_cases hq : (v.available_quantity == pv.stock_quantity) <;> simp [hq]
  refine ⟨runPull_row_find env s r hr hrowN hrowAll, hevid, ?_⟩
  have hpv1 : (joinListing (runPull env s).store
      (pullRowF env (joinListing s r) r)).product_variant =
      some (chainPullVarF env (loadListings s) pv) := by
    show (runPull env s).store.variants.find?
      (fun w => w.id == (pullRowF env (joinListing s r) r).product_variant_id) = _
    rw [pullRowF_pvid]
    rw [runPull_variants,
      find?_map_pres (chainPullVarF env (loadListings s))
        (fun w => w.id == r.product_variant_id)
        (fun w => by simp [chainPullVarF_id]) s.variants]
    have h2 : s.variants.find? (fun w => w.id == r.product_variant_id) = some pv := hpv
    rw [h2, Option.map_some']
  have heid1 : (pullRowF env (joinListing s r) r).external_id = some eid := by
    rw [pullRowF_eid]
    exact heid
  have hvne : toString v.id ≠ "" := natToString_ne_empty v.id
  rw [resolvePull_set env _ (chainPullVarF env (loadListings s) pv) eid it
    (toString v.id) hpv1 heid1 hee hit hevid hvne]
  have hvmem : v ∈ varList it := recoverVariation_mem pv.sku (varList it) v hm
  have hfind : (varList it).find? (fun w => toString w.id == toString v.id) = some v :=
    find?_eq_of_nodup_map (fun w => toString w.id) (varList it) v hids hvmem
  exact resolveSet_found _ it (toString v.id) v hfind

/-- Witness for C7: the local code `"AULM080CEF-181"` contains the
variation id `181`; after one pull run the link's stored
`external_variant_id` is `"181"` and the updated link resolves directly. -/
theorem c7_witness :
    (runPull c7Env c7Store).store.listings.find? (fun x => x.id == "L1") =
      some (pullRowF c7Env (joinListing c7Store c7Row) c7Row) ∧
    (pullRowF c7Env (joinListing c7Store c7Row) c7Row).external_variant_id =
      some "181" ∧
    resolvePull c7Env
      (joinListing (runPull c7Env c7Store).store
        (pullRowF c7Env (joinListing c7Store c7Row) c7Row)) =
      .resolved (chainPullVarF c7Env (loadListings c7Store)
          { id := "v1", stock_quantity := 8, sku := some "AULM080CEF-181" })
        4 none := by
  have h := c7_self_healing c7Env c7Store c7Row
    { id := "v1", stock_quantity := 8, sku := some "AULM080CEF-181" }
    "MLA500" c7Item
    { id := 181, available_quantity := 4, seller_custom_field := none }
    (by decide) rfl rfl (by decide) rfl rfl (by decide) (by decide)
    (by decide) (by decide) (by decide)
  exact ⟨h.1, h.2.1, h.2.2⟩

/-- C5: a push run never mutates local stock and never appends a ledger
entry; for a linked unit whose local quantity differs from the listing's
last-synced quantity and whose remote write succeeds, the run issues
exactly that write — variation-level endpoint when the listing has a
remote variation id, item-level otherwise — stamps the listing's
`stock_synced` and `last_sync_at`, and counts the unit as synced; when the
quantities already match, the unit performs no write at all and is not
counted as synced. -/
theorem c5_push_behaviour (env : Env) (s : Store) (r : ListingRow)
    (pv : ProductVariant) (eid : String)
    (hr : r ∈ mlRows s)
    (hpv : (joinListing s r).product_variant = some pv)
    (heid : r.external_id = some eid) (hee : eid ≠ "")
    (hrowN : ((mlRows s).map (fun x => x.id)).Nodup)
    (hrowAll : (s.listings.map (fun x => x.id)).Nodup) :
    (runPush env s).store.variants = s.variants
  ∧ (runPush env s).store.movements = s.movements
  ∧ (pv.stock_quantity ≠ r.stock_synced →
      env.writeResult eid (pushCoord (joinListing s r)) pv.stock_quantity = none →
        pushUnitWrites env (joinListing s r) =
          [pushWriteOf (joinListing s r) eid pv.stock_quantity]
      ∧ pushWriteOf (joinListing s r) eid pv.stock_quantity ∈ (runPush env s).writes
      ∧ (∀ varId, r.external_variant_id = some varId → varId ≠ "" →
          pushWriteOf (joinListing s r) eid pv.stock_quantity =
            RemoteWrite.variation eid varId pv.stock_quantity)
      ∧ (truthy r.external_variant_id = false →
          pushWriteOf (joinListing s r) eid pv.stock_quantity =
            RemoteWrite.item eid pv.stock_quantity)
      ∧ ((runPush env s).store.listings.find? (fun x => x.id == r.id)).map
            (fun x => (x.stock_synced, x.last_sync_at)) =
          some (pv.stock_quantity, some env.now)
      ∧ pushUnitSynced env (joinListing s r) = true)
  ∧ (pv.stock_quantity = r.stock_synced →
        pushUnitWrites env (joinListing s r) = []
      ∧ (runPush env s).store.listings.find? (fun x => x.id == r.id) =
          s.listings.find? (fun x => x.id == r.id)
      ∧ pushUnitSynced env (joinListing s r) = false
      ∧ (∀ st, pushStep env st (joinListing s r) = st)) := by
  refine ⟨runPush_variants env s, runPush_movements env s, ?_, ?_⟩
  · intro hne hwr
    have hA : pushAttempt (joinListing s r) = some (pv, eid) := by
      unfold pushAttempt
      rw [hpv]
      show (match r.external_id with
            | none => none
            | some eid =>
              if eid == "" then none
              else if pv.stock_quantity == r.stock_synced then none
              else some (pv, eid)) = some (pv, eid)
      rw [heid]
      simp [hee, hne]
    have hW : pushUnitWrites env (joinListing s r) =
        [pushWriteOf (joinListing s r) eid pv.stock_quantity] := by
      unfold pushUnitWrites
      rw [hA]
      dsimp only
      rw [hwr]
      rfl
    refine ⟨hW, ?_, ?_, ?_, ?_, ?_⟩
    · rw [runPush_writes]
      refine List.mem_flatMap.mpr ⟨joinListing s r, ?_, ?_⟩
      · exact List.mem_map_of_mem (joinListing s) hr
      · rw [hW]
        exact List.mem_singleton.mpr rfl
    · intro varId hv hvne
      unfold pushWriteOf pushCoord
      show (match (match r.external_variant_id with
            | some v => if v == "" then none else some v
            | none => none) with
            | some varId => RemoteWrite.variation eid varId pv.stock_quantity
            | none => RemoteWrite.item eid pv.stock_quantity) = _
      rw [hv]
      simp [hvne]
    · intro hfalsy
      unfold pushWriteOf pushCoord
      show (match (match r.external_variant_id with
            | some v => if v == "" then none else some v
            | none => none) with
            | some varId => RemoteWrite.variation eid varId pv.stock_quantity
            | none => RemoteWrite.item eid pv.stock_quantity) = _
      cases hv : r.external_variant_id with
      | none => rfl
      | some varId =>
        rw [hv] at hfalsy
        have hemp : varId = "" := by simpa [truthy] using hfalsy
        simp [hemp]
    · rw [runPush_row_find env s r hr hrowN hrowAll]
      have : (pushRowF env (joinListing s r) r).stock_synced = pv.stock_quantity ∧
          (pushRowF env (joinListing s r) r).last_sync_at = some env.now := by
        unfold pushRowF
        rw [hA]
        dsimp only
        rw [hwr]
        have hrr : (joinListing s r).row = r := rfl
        simp [hrr]
      simp [this.1, this.2]
    · unfold pushUnitSynced
      rw [hA]
      dsimp only
      rw [hwr]
      rfl
  · intro heq
    have hA : pushAttempt (joinListing s r) = none := by
      unfold pushAttempt
      rw [hpv]
      show (match r.external_id with
            | none => none
            | some eid =>
              if eid == "" then none
              else if pv.stock_quantity == r.stock_synced then none
              else some (pv, eid)) = none
      rw [heid]
      simp [hee, heq]
    refine ⟨?_, ?_, ?_, ?_⟩
    · unfold pushUnitWrites
      rw [hA]
    · rw [runPush_row_find env s r hr hrowN hrowAll]
      have : pushRowF env (joinListing s r) r = r := by
        unfold pushRowF
        rw [hA]
      rw [this,
        find?_eq_of_nodup_map (fun x => x.id) s.listings r hrowAll
          (mem_listings_of_mem_mlRows s r hr)]
    · unfold pushUnitSynced
      rw [hA]
    · intro st
      unfold pushStep
      rw [hpv]
      show (match r.external_id with
            | none => st
            | some eid =>
              if eid == "" then st
              else
                if pv.stock_quantity == r.stock_synced then st
                else _) = st
      rw [heid]
      simp [hee, heq]

/-- Witness for C5: local 10 against last-synced 5 on a variation-linked
listing — one variation-endpoint write of 10, listing stamped, unit
counted, and no local mutation. -/
theorem c5_witness :
    (runPush c5Env c5Store).store.variants = c5Store.variants ∧
    (runPush c5Env c5Store).store.movements = c5Store.movements ∧
    pushWriteOf (joinListing c5Store c5Row) "MLA600" 10 ∈ (runPush c5Env c5Store).writes ∧
    pushWriteOf (joinListing c5Store c5Row) "MLA600" 10 =
      RemoteWrite.variation "MLA600" "777" 10 ∧
    ((runPush c5Env c5Store).store.listings.find? (fun x => x.id == "L1")).map
        (fun x => (x.stock_synced, x.last_sync_at)) = some ((10 : Int), some 6) ∧
    pushUnitSynced c5Env (joinListing c5Store c5Row) = true := by
  have h := c5_push_behaviour c5Env c5Store c5Row
    { id := "v1", stock_quantity := 10, sku := none } "MLA600"
    (by decide) rfl rfl (by decide) (by decide) (by decide)
  have hi := h.2.2.1 (by decide) rfl
  exact ⟨h.1, h.2.1, hi.2.1, hi.2.2.1 "777" rfl (by decide), hi.2.2.2.2.1, hi.2.2.2.2.2⟩

/-- C8 counterexample: (a) a pull run over three skipped units — one
malformed link (no external id), one whose remote item is absent from the
batch, one with a stale variation id — reports **no** error at all, so
skipped units are silently dropped; and (b) a failure of the batched
remote-item fetch aborts the whole pull run, so the listing-load failure
is not the only run-fatal error. -/
theorem c8_counterexample :
    (runPull c8cEnv c8cStore).errors = [] ∧
    (runPull c8cEnv c8cStore).store = c8cStore ∧
    (runPull c8cEnv c8cStore).synced = 0 ∧
    (mkReport "pull" 3 (runPull c8cEnv c8cStore)).errors = none ∧
    runSync c8cEnvFatal (some "pull") c8cStore = .error "Error sincronizando stock" := by
  exact ⟨rfl, rfl, rfl, rfl, rfl⟩

/-- C8 (amended): per-unit processing never aborts a run — every
candidate listing is accounted for (`total` is the full candidate count)
and the run's errors, synced count and store effects decompose into
independent per-unit contributions, so one unit's failure leaves every
other unit's processing intact.  A unit whose remote write throws
contributes exactly its one error entry, and an ambiguous-SKU skip
contributes its explanatory entry; however units skipped for a malformed
link, a remote item absent from the batch, or a stale variation id
contribute no entry (they are dropped silently), and in a pull run a
failure of the batched remote-item fetch — not only the listing-load
failure — is run-fatal. -/
theorem c8_partial_failure_isolation (env : Env) (dirRaw : Option String) (s : Store)
    (st : RunState) (rep : SyncReport)
    (h : runSync env dirRaw s = .ok (st, rep)) :
    rep.total = (loadListings s).length
  ∧ (decodeDirection dirRaw = "push" →
        st.errors = (loadListings s).flatMap (pushUnitErrors env)
      ∧ st.synced = (loadListings s).countP (pushUnitSynced env)
      ∧ st.store.listings = s.listings.map (chainPushRowF env (loadListings s)))
  ∧ (decodeDirection dirRaw ≠ "push" →
        st.errors = (loadListings s).flatMap (pullUnitErrors env)
      ∧ st.synced = (loadListings s).countP (pullUnitSynced env)
      ∧ st.store.listings = s.listings.map (chainPullRowF env (loadListings s))
      ∧ st.store.variants = s.variants.map (chainPullVarF env (loadListings s)))
  ∧ (∀ l, resolvePull env l = .skip → pullUnitErrors env l = [])
  ∧ (∀ l msg, resolvePull env l = .ambiguous msg → pullUnitErrors env l = [msg])
  ∧ (∀ l pv eid msg, pushAttempt l = some (pv, eid) →
        env.writeResult eid (pushCoord l) pv.stock_quantity = some msg →
        pushUnitErrors env l = ["Item " ++ eid ++ ": " ++ msg])
  ∧ (∀ l, pushAttempt l = none → pushUnitErrors env l = []) := by
  refine ⟨?_, ?_, ?_,
    (fun l hl => pullUnitErrors_of_skip env l hl),
    (fun l msg hl => pullUnitErrors_of_ambiguous env l msg hl),
    ?_, ?_⟩
  · by_cases hd : decodeDirection dirRaw = "push"
    · rw [runSync_push env dirRaw s hd] at h
      simp only [Except.ok.injEq, Prod.mk.injEq] at h
      rw [← h.2, mkReport]
    · cases hb : env.batchFail with
      | some e => rw [runSync_pull_fatal env dirRaw s e hd hb] at h; cases h
      | none =>
        rw [runSync_pull env dirRaw s hd hb] at h
        simp only [Except.ok.injEq, Prod.mk.injEq] at h
        rw [← h.2, mkReport]
  · intro hd
    rw [runSync_push env dirRaw s hd] at h
    simp only [Except.ok.injEq, Prod.mk.injEq] at h
    rw [← h.1]
    exact ⟨runPush_errors env s, runPush_synced env s, runPush_listings env s⟩
  · intro hd
    cases hb : env.batchFail with
    | some e => rw [runSync_pull_fatal env dirRaw s e hd hb] at h; cases h
    | none =>
      rw [runSync_pull env dirRaw s hd hb] at h
      simp only [Except.ok.injEq, Prod.mk.injEq] at h
      rw [← h.1]
      exact ⟨runPull_errors env s, runPull_synced env s, runPull_listings env s,
        runPull_variants env s⟩
  · intro l pv eid msg hA hw
    unfold pushUnitErrors
    rw [hA]
    dsimp only
    rw [hw]
  · intro l hA
    unfold pushUnitErrors
    rw [hA]

/-- Witness for C8: three linked units in a push run where unit 2's remote
write throws — units 1 and 3 are still processed (both synced), exactly
one error is reported for unit 2, and the total counts all three. -/
theorem c8_witness :
    (mkReport "push" (loadListings c8wStore).length (runPush c8wEnv c8wStore)).total =
      (loadListings c8wStore).length ∧
    (runPush c8wEnv c8wStore).errors =
      (loadListings c8wStore).flatMap (pushUnitErrors c8wEnv) ∧
    (runPush c8wEnv c8wStore).errors = ["Item MLA2: boom"] ∧
    (runPush c8wEnv c8wStore).synced = 2 ∧
    (loadListings c8wStore).length = 3 := by
  have h := c8_partial_failure_isolation c8wEnv (some "push") c8wStore
    (runPush c8wEnv c8wStore)
    (mkReport "push" (loadListings c8wStore).length (runPush c8wEnv c8wStore))
    (runSync_push c8wEnv (some "push") c8wStore rfl)
  exact ⟨h.1, (h.2.1 rfl).1, rfl, rfl, rfl⟩

/-! ## Claim C4 — auxiliary lemmas -/
theorem chainPullRowF_at_mem (env : Env) (s : Store) (r : ListingRow)
    (hr : r ∈ mlRows s)
    (hrowN : ((mlRows s).map (fun x => x.id)).Nodup) :
    chainPullRowF env (loadListings s) r = pullRowF env (joinListing s r) r := by
  obtain ⟨A, B, hAB⟩ := List.append_of_mem hr
  rw [hAB] at hrowN
  obtain ⟨hA, hB⟩ := nodup_split (fun x => x.id) A B r hrowN
  have hload : loadListings s =
      A.map (joinListing s) ++ joinListing s r :: B.map (joinListing s) := by
    unfold loadListings
    rw [hAB]
    simp
  rw [hload]
  exact chainPullRowF_middle env _ _ _ r
    (fun x hx => by
      obtain ⟨a, ha, rfl⟩ := List.mem_map.mp hx
      exact hA a ha)
    (fun x hx => by
      obtain ⟨b, hb, rfl⟩ := List.mem_map.mp hx
      exact hB b hb)

theorem chainPushRowF_at_mem (env : Env) (s : Store) (r : ListingRow)
    (hr : r ∈ mlRows s)
    (hrowN : ((mlRows s).map (fun x => x.id)).Nodup) :
    chainPushRowF env (loadListings s) r = pushRowF env (joinListing s r) r := by
  obtain ⟨A, B, hAB⟩ := List.append_of_mem hr
  rw [hAB] at hrowN
  obtain ⟨hA, hB⟩ := nodup_split (fun x => x.id) A B r hrowN
  have hload : loadListings s =
      A.map (joinListing s) ++ joinListing s r :: B.map (joinListing s) := by
    unfold loadListings
    rw [hAB]
    simp
  rw [hload]
  exact chainPushRowF_middle env _ _ _ r
    (fun x hx => by
      obtain ⟨a, ha, rfl⟩ := List.mem_map.mp hx
      exact hA a ha)
    (fun x hx => by
      obtain ⟨b, hb, rfl⟩ := List.mem_map.mp hx
      exact hB b hb)

theorem chainPullVarF_at_mem (env : Env) (s : Store) (r : ListingRow)
    (v : ProductVariant) (hr : r ∈ mlRows s)
    (hvid : v.id = r.product_variant_id)
    (hvarN : ((mlRows s).map (fun x => x.product_variant_id)).Nodup) :
    chainPullVarF env (loadListings s) v = pullVarF env (joinListing s r) v := by
  obtain ⟨A, B, hAB⟩ := List.append_of_mem hr
  rw [hAB] at hvarN
  obtain ⟨hA, hB⟩ := nodup_split (fun x => x.product_variant_id) A B r hvarN
  have hload : loadListings s =
      A.map (joinListing s) ++ joinListing s r :: B.map (joinListing s) := by
    unfold loadListings
    rw [hAB]
    simp
  rw [hload]
  exact chainPullVarF_middle env _ _ _ v
    (fun x hx pv2 hpv2 => by
      obtain ⟨a, ha, rfl⟩ := List.mem_map.mp hx
      rw [hvid, joinListing_pv s a pv2 hpv2]
      exact hA a ha)
    (fun x hx pv2 hpv2 => by
      obtain ⟨b, hb, rfl⟩ := List.mem_map.mp hx
      rw [hvid, joinListing_pv s b pv2 hpv2]
      exact hB b hb)

theorem mlRows_runPush (env : Env) (s : Store) :
    mlRows (runPush env s).store = (mlRows s).map (chainPushRowF env (loadListings s)) := by
  unfold mlRows
  rw [runPush_listings]
  exact filter_platform_map s.listings _ (chainPushRowF_platform env (loadListings s))

theorem loadListings_runPull (env : Env) (s : Store) :
    loadListings (runPull env s).store =
      (mlRows s).map (fun r =>
        joinListing (runPull env s).store (chainPullRowF env (loadListings s) r)) := by
  unfold loadListings
  rw [mlRows_runPull, List.map_map]
  rfl

theorem loadListings_runPush (env : Env) (s : Store) :
    loadListings (runPush env s).store =
      (mlRows s).map (fun r =>
        joinListing (runPush env s).store (chainPushRowF env (loadListings s) r)) := by
  unfold loadListings
  rw [mlRows_runPush, List.map_map]
  rfl

theorem joinListing_runPull (env : Env) (s : Store) (r2 : ListingRow) :
    (joinListing (runPull env s).store r2).product_variant =
      (s.variants.find? (fun w => w.id == r2.product_variant_id)).map
        (chainPullVarF env (loadListings s)) := by
  show (runPull env s).store.variants.find?
    (fun w => w.id == r2.product_variant_id) = _
  rw [runPull_variants,
    find?_map_pres (chainPullVarF env (loadListings s)) _
      (fun w => by simp [chainPullVarF_id]) s.variants]

theorem joinListing_runPush (env : Env) (s : Store) (r2 : ListingRow) :
    (joinListing (runPush env s).store r2).product_variant =
      s.variants.find? (fun w => w.id == r2.product_variant_id) := by
  show (runPush env s).store.variants.find?
    (fun w => w.id == r2.product_variant_id) = _
  rw [runPush_variants]

theorem pullVarF_own (env : Env) (l : LoadedListing) (pv : ProductVariant)
    (q : Int) (heal : Option String)
    (hres : resolvePull env l = .resolved pv q heal) :
    (pullVarF env l pv).stock_quantity = q ∧ (pullVarF env l pv).id = pv.id ∧
    (pullVarF env l pv).sku = pv.sku := by
  unfold pullVarF
  rw [hres]
  by_cases hq : (q == pv.stock_quantity)
  · have : q = pv.stock_quantity := by simpa using hq
    simp [hq, this]
  · simp [hq]

theorem pullRowF_evid_healNone (env : Env) (l : LoadedListing) (r : ListingRow)
    (pv : ProductVariant) (q : Int)
    (hres : resolvePull env l = .resolved pv q none) :
    (pullRowF env l r).external_variant_id = r.external_variant_id := by
  unfold pullRowF
  by_cases hid : (r.id == l.row.id)
  · rw [if_pos hid, hres]
    by_cases hq : (q == pv.stock_quantity) <;> simp [hq]
  · rw [if_neg hid]

theorem pullRowF_evid_healSome (env : Env) (l : LoadedListing) (r : ListingRow)
    (pv : ProductVariant) (q : Int) (vid : String)
    (hid : (r.id == l.row.id) = true)
    (hres : resolvePull env l = .resolved pv q (some vid)) :
    (pullRowF env l r).external_variant_id = some vid := by
  unfold pullRowF
  rw [if_pos hid, hres]
  by_cases hq : (q == pv.stock_quantity) <;> simp [hq]

theorem pushAttempt_inv (l : LoadedListing) (pv : ProductVariant) (eid : String)
    (h : pushAttempt l = some (pv, eid)) :
    l.product_variant = some pv ∧ l.row.external_id = some eid ∧ eid ≠ "" ∧
    pv.stock_quantity ≠ l.row.stock_synced := by
  unfold pushAttempt at h
  cases hpv : l.product_variant with
  | none => rw [hpv] at h; cases h
  | some pv0 =>
    rw [hpv] at h
    cases heid : l.row.external_id with
    | none => rw [heid] at h; cases h
    | some eid0 =>
      rw [heid] at h
      dsimp only at h
      by_cases hee : (eid0 == "")
      · rw [if_pos hee] at h; cases h
      · rw [if_neg hee] at h
        by_cases heq : (pv0.stock_quantity == l.row.stock_synced)
        · rw [if_pos heq] at h; cases h
        · rw [if_neg heq] at h
          have hpe : pv0 = pv ∧ eid0 = eid := by
            have h2 := (Option.some.injEq _ _).mp h
            exact ⟨congrArg Prod.fst h2, congrArg Prod.snd h2⟩
          obtain ⟨rfl, rfl⟩ := hpe
          exact ⟨rfl, rfl, by simpa using hee, by simpa using heq⟩

/-- Second-run no-op for a listing that entered the first run with its
variation id already set. -/
theorem pull_second_run_set (env : Env) (s : Store) (r : ListingRow)
    (pv : ProductVariant) (eid : String) (it : MLItem) (evid : String)
    (hr : r ∈ mlRows s)
    (hvarN : ((mlRows s).map (fun x => x.product_variant_id)).Nodup)
    (hpv : (joinListing s r).product_variant = some pv)
    (heid : r.external_id = some eid) (hee : eid ≠ "")
    (hit : remoteLookup env eid = some it)
    (hev : r.external_variant_id = some evid) (hevne : evid ≠ "") :
    pullUnitSynced env (joinListing (runPull env s).store
      (pullRowF env (joinListing s r) r)) = false := by
  have hfindpv : s.variants.find? (fun w => w.id == r.product_variant_id) = some pv := hpv
  have hpid : pv.id = r.product_variant_id := joinListing_pv s r pv hpv
  have hchainv : chainPullVarF env (loadListings s) pv = pullVarF env (joinListing s r) pv :=
    chainPullVarF_at_mem env s r pv hr hpid hvarN
  have hresS : resolvePull env (joinListing s r) = resolveSet pv it evid :=
    resolvePull_set env (joinListing s r) pv eid it evid hpv heid hee hit hev hevne
  have hpv1gen : ∀ r2 : ListingRow, r2.product_variant_id = r.product_variant_id →
      (joinListing (runPull env s).store r2).product_variant =
        some (pullVarF env (joinListing s r) pv) := by
    intro r2 h2
    rw [joinListing_runPull, h2, hfindpv, Option.map_some', hchainv]
  cases hf : (varList it).find? (fun w => toString w.id == evid) with
  | some v =>
    have hres : resolvePull env (joinListing s r) =
        .resolved pv v.available_quantity none := by
      rw [hresS]
      exact resolveSet_found pv it evid v hf
    have heid1 : (pullRowF env (joinListing s r) r).external_id = some eid := by
      rw [pullRowF_eid]
      exact heid
    have hevid1 : (pullRowF env (joinListing s r) r).external_variant_id = some evid := by
      rw [pullRowF_evid_healNone env _ r pv _ hres]
      exact hev
    have hpv1 := hpv1gen (pullRowF env (joinListing s r) r) (pullRowF_pvid env _ r)
    have hstock1 := (pullVarF_own env (joinListing s r) pv _ none hres).1
    unfold pullUnitSynced
    rw [resolvePull_set env _ _ eid it evid hpv1 heid1 hee hit hevid1 hevne,
      resolveSet_found _ it evid v hf]
    simp [hstock1]
  | none =>
    by_cases hz : varList it = []
    · have hres : resolvePull env (joinListing s r) =
          .resolved pv it.available_quantity none := by
        rw [hresS]
        exact resolveSet_fallback pv it evid hf hz
      have heid1 : (pullRowF env (joinListing s r) r).external_id = some eid := by
        rw [pullRowF_eid]
        exact heid
      have hevid1 : (pullRowF env (joinListing s r) r).external_variant_id = some evid := by
        rw [pullRowF_evid_healNone env _ r pv _ hres]
        exact hev
      have hpv1 := hpv1gen (pullRowF env (joinListing s r) r) (pullRowF_pvid env _ r)
      have hstock1 := (pullVarF_own env (joinListing s r) pv _ none hres).1
      unfold pullUnitSynced
      rw [resolvePull_set env _ _ eid it evid hpv1 heid1 hee hit hevid1 hevne,
        resolveSet_fallback _ it evid hf hz]
      simp [hstock1]
    · have hres : resolvePull env (joinListing s r) = .skip := by
        rw [hresS]
        exact resolveSet_stale pv it evid hf hz
      rw [pullRowF_of_skip env _ r hres]
      have hpv1 : (joinListing (runPull env s).store r).product_variant = some pv := by
        rw [joinListing_runPull, hfindpv, Option.map_some', hchainv,
          pullVarF_of_skip env _ pv hres]
      unfold pullUnitSynced
      rw [resolvePull_set env _ pv eid it evid hpv1 heid hee hit hev hevne,
        resolveSet_stale pv it evid hf hz]

/-- Second-run no-op for a listing that entered the first run with a falsy
variation id (the self-healing / ambiguous / simple-item cases). -/
theorem pull_second_run_unset (env : Env) (s : Store) (r : ListingRow)
    (pv : ProductVariant) (eid : String) (it : MLItem)
    (hr : r ∈ mlRows s)
    (hvarN : ((mlRows s).map (fun x => x.product_variant_id)).Nodup)
    (hids : ∀ it2 ∈ env.remote, ((varList it2).map (fun w => toString w.id)).Nodup)
    (hpv : (joinListing s r).product_variant = some pv)
    (heid : r.external_id = some eid) (hee : eid ≠ "")
    (hit : remoteLookup env eid = some it)
    (hev : truthy r.external_variant_id = false) :
    pullUnitSynced env (joinListing (runPull env s).store
      (pullRowF env (joinListing s r) r)) = false := by
  have hfindpv : s.variants.find? (fun w => w.id == r.product_variant_id) = some pv := hpv
  have hpid : pv.id = r.product_variant_id := joinListing_pv s r pv hpv
  have hchainv : chainPullVarF env (loadListings s) pv = pullVarF env (joinListing s r) pv :=
    chainPullVarF_at_mem env s r pv hr hpid hvarN
  have hresU : resolvePull env (joinListing s r) = resolveUnset eid pv it :=
    resolvePull_unset env (joinListing s r) pv eid it hpv heid hee hit hev
  have hpv1gen : ∀ r2 : ListingRow, r2.product_variant_id = r.product_variant_id →
      (joinListing (runPull env s).store r2).product_variant =
        some (pullVarF env (joinListing s r) pv) := by
    intro r2 h2
    rw [joinListing_runPull, h2, hfindpv, Option.map_some', hchainv]
  by_cases hz : varList it = []
  · have hres : resolvePull env (joinListing s r) =
        .resolved pv it.available_quantity none := by
      rw [hresU]
      exact resolveUnset_simple eid pv it hz
    have heid1 : (pullRowF env (joinListing s r) r).external_id = some eid := by
      rw [pullRowF_eid]
      exact heid
    have hev1 : truthy (pullRowF env (joinListing s r) r).external_variant_id = false := by
      rw [pullRowF_evid_healNone env _ r pv _ hres]
      exact hev
    have hpv1 := hpv1gen (pullRowF env (joinListing s r) r) (pullRowF_pvid env _ r)
    have hstock1 := (pullVarF_own env (joinListing s r) pv _ none hres).1
    unfold pullUnitSynced
    rw [resolvePull_unset env _ _ eid it hpv1 heid1 hee hit hev1,
      resolveUnset_simple eid _ it hz]
    simp [hstock1]
  · cases hm : recoverVariation pv.sku (varList it) with
    | none =>
      have hres : resolvePull env (joinListing s r) =
          .ambiguous ("Saltado " ++ eid ++ ": Requiere vinculación manual de variante") := by
        rw [hresU]
        exact resolveUnset_nomatch eid pv it hz hm
      rw [pullRowF_of_ambiguous env _ r _ hres]
      have hpv1 : (joinListing (runPull env s).store r).product_variant = some pv := by
        rw [joinListing_runPull, hfindpv, Option.map_some', hchainv,
          pullVarF_of_ambiguous env _ pv _ hres]
      unfold pullUnitSynced
      rw [resolvePull_unset env _ pv eid it hpv1 heid hee hit hev,
        resolveUnset_nomatch eid pv it hz hm]
    | some v =>
      have hres : resolvePull env (joinListing s r) =
          .resolved pv v.available_quantity (some (toString v.id)) := by
        rw [hresU]
        exact resolveUnset_match eid pv it v hz hm
      have hid : (r.id == (joinListing s r).row.id) = true := by simp [joinListing]
      have heid1 : (pullRowF env (joinListing s r) r).external_id = some eid := by
        rw [pullRowF_eid]
        exact heid
      have hevid1 : (pullRowF env (joinListing s r) r).external_variant_id =
          some (toString v.id) :=
        pullRowF_evid_healSome env _ r pv _ (toString v.id) hid hres
      have hpv1 := hpv1gen (pullRowF env (joinListing s r) r) (pullRowF_pvid env _ r)
      have hstock1 := (pullVarF_own env (joinListing s r) pv _ (some (toString v.id)) hres).1
      have hsku1 := (pullVarF_own env (joinListing s r) pv _ (some (toString v.id)) hres).2.2
      by_cases hvz : toString v.id = ""
      · have hev1 : truthy (pullRowF env (joinListing s r) r).external_variant_id = false := by
          rw [hevid1, hvz]
          rfl
        unfold pullUnitSynced
        rw [resolvePull_unset env _ _ eid it hpv1 heid1 hee hit hev1]
        have hm1 : recoverVariation (pullVarF env (joinListing s r) pv).sku (varList it) =
            some v := by
          rw [hsku1]
          exact hm
        rw [resolveUnset_match eid _ it v hz hm1]
        simp [hstock1]
      · have hitmem : it ∈ env.remote := List.mem_of_find?_eq_some hit
        have hvmem : v ∈ varList it := recoverVariation_mem pv.sku (varList it) v hm
        have hf : (varList it).find? (fun w => toString w.id == toString v.id) = some v :=
          find?_eq_of_nodup_map (fun w => toString w.id) (varList it) v
            (hids it hitmem) hvmem
        unfold pullUnitSynced
        rw [resolvePull_set env _ _ eid it (toString v.id) hpv1 heid1 hee hit hevid1 hvz,
          resolveSet_found _ it (toString v.id) v hf]
        simp [hstock1]

/-- In a pull run, every listing already reconciled (or skipped) by the
first run is a no-op in the second: its evolved snapshot is never counted
as synced. -/
theorem pull_second_run_unit (env : Env) (s : Store) (r : ListingRow)
    (hr : r ∈ mlRows s)
    (hrowN : ((mlRows s).map (fun x => x.id)).Nodup)
    (hvarN : ((mlRows s).map (fun x => x.product_variant_id)).Nodup)
    (hids : ∀ it2 ∈ env.remote, ((varList it2).map (fun w => toString w.id)).Nodup) :
    pullUnitSynced env (joinListing (runPull env s).store
      (chainPullRowF env (loadListings s) r)) = false := by
  rw [chainPullRowF_at_mem env s r hr hrowN]
  cases hpv : (joinListing s r).product_variant with
  | none =>
    have hres : resolvePull env (joinListing s r) = .skip :=
      resolvePull_skip_noPv env _ hpv
    rw [pullRowF_of_skip env _ r hres]
    have hpv1 : (joinListing (runPull env s).store r).product_variant = none := by
      rw [joinListing_runPull]
      have h2 : s.variants.find? (fun w => w.id == r.product_variant_id) = none := hpv
      rw [h2]
      rfl
    unfold pullUnitSynced
    rw [resolvePull_skip_noPv env _ hpv1]
  | some pv =>
    have hfindpv : s.variants.find? (fun w => w.id == r.product_variant_id) = some pv := hpv
    have hpid : pv.id = r.product_variant_id := joinListing_pv s r pv hpv
    have hchainv : chainPullVarF env (loadListings s) pv =
        pullVarF env (joinListing s r) pv :=
      chainPullVarF_at_mem env s r pv hr hpid hvarN
    cases heid : r.external_id with
    | none =>
      have hres : resolvePull env (joinListing s r) = .skip :=
        resolvePull_skip_noEid env _ pv hpv heid
      rw [pullRowF_of_skip env _ r hres]
      have hpv1 : (joinListing (runPull env s).store r).product_variant =
          some pv := by
        rw [joinListing_runPull, hfindpv, Option.map_some', hchainv,
          pullVarF_of_skip env _ pv hres]
      unfold pullUnitSynced
      rw [resolvePull_skip_noEid env _ pv hpv1 heid]
    | some eid =>
      by_cases hee : eid = ""
      · subst hee
        have hres : resolvePull env (joinListing s r) = .skip :=
          resolvePull_skip_emptyEid env _ pv hpv heid
        rw [pullRowF_of_skip env _ r hres]
        have hpv1 : (joinListing (runPull env s).store r).product_variant =
            some pv := by
          rw [joinListing_runPull, hfindpv, Option.map_some', hchainv,
            pullVarF_of_skip env _ pv hres]
        unfold pullUnitSynced
        rw [resolvePull_skip_emptyEid env _ pv hpv1 heid]
      · cases hit : remoteLookup env eid with
        | none =>
          have hres : resolvePull env (joinListing s r) = .skip :=
            resolvePull_skip_noItem env _ pv eid hpv heid hee hit
          rw [pullRowF_of_skip env _ r hres]
          have hpv1 : (joinListing (runPull env s).store r).product_variant =
              some pv := by
            rw [joinListing_runPull, hfindpv, Option.map_some', hchainv,
              pullVarF_of_skip env _ pv hres]
          unfold pullUnitSynced
          rw [resolvePull_skip_noItem env _ pv eid hpv1 heid hee hit]
        | some it =>
          cases hev : r.external_variant_id with
          | none =>
            exact pull_second_run_unset env s r pv eid it hr hvarN hids hpv heid hee hit
              (by rw [hev]; rfl)
          | some evid =>
            by_cases hevz : evid = ""
            · exact pull_second_run_unset env s r pv eid it hr hvarN hids hpv heid hee hit
                (by rw [hev, hevz]; rfl)
            · exact pull_second_run_set env s r pv eid it evid hr hvarN hpv heid hee hit
                hev hevz

/-- In a push run, every listing already synchronized (or skipped or
failed) by the first run is a no-op in the second. -/
theorem push_second_run_unit (env : Env) (s : Store) (r : ListingRow)
    (hr : r ∈ mlRows s)
    (hrowN : ((mlRows s).map (fun x => x.id)).Nodup) :
    pushUnitSynced env (joinListing (runPush env s).store
      (chainPushRowF env (loadListings s) r)) = false := by
  rw [chainPushRowF_at_mem env s r hr hrowN]
  have hjoin : ∀ r2 : ListingRow,
      (joinListing (runPush env s).store r2).product_variant =
        (joinListing s r2).product_variant := by
    intro r2
    rw [joinListing_runPush]
    rfl
  cases hA : pushAttempt (joinListing s r) with
  | none =>
    have hrow1 : pushRowF env (joinListing s r) r = r := by
      unfold pushRowF
      rw [hA]
    rw [hrow1]
    have hsame : joinListing (runPush env s).store r = joinListing s r := by
      unfold joinListing
      rw [runPush_variants]
    rw [hsame]
    unfold pushUnitSynced
    rw [hA]
  | some pe =>
    obtain ⟨pv, eid⟩ := pe
    obtain ⟨hpv, heid, hee, hne⟩ := pushAttempt_inv (joinListing s r) pv eid hA
    cases hw : env.writeResult eid (pushCoord (joinListing s r)) pv.stock_quantity with
    | some msg =>
      have hrow1 : pushRowF env (joinListing s r) r = r := by
        unfold pushRowF
        rw [hA]
        dsimp only
        rw [hw]
      rw [hrow1]
      have hsame : joinListing (runPush env s).store r = joinListing s r := by
        unfold joinListing
        rw [runPush_variants]
      rw [hsame]
      unfold pushUnitSynced
      rw [hA]
      dsimp only
      rw [hw]
      rfl
    | none =>
      have hrow1 : pushRowF env (joinListing s r) r =
          { r with stock_synced := pv.stock_quantity, last_sync_at := some env.now } := by
        unfold pushRowF
        rw [hA]
        dsimp only
        rw [hw]
        have hid : (r.id == (joinListing s r).row.id) = true := by simp [joinListing]
        rw [if_pos hid]
      rw [hrow1]
      have hpv1 : (joinListing (runPush env s).store
          { r with stock_synced := pv.stock_quantity,
                   last_sync_at := some env.now }).product_variant = some pv := by
        rw [hjoin]
        exact hpv
      unfold pushUnitSynced pushAttempt
      rw [hpv1]
      dsimp only [joinListing]
      have heid2 : r.external_id = some eid := heid
      rw [heid2]
      simp [hee]

/-- C4: under the data model's uniqueness assumptions (unique listing row
ids, one Listing Link per inventory unit, distinct variation id strings
per remote item), running the sync twice in a row — either direction —
with no intervening local or remote change yields `synced = 0` on the
second run: everything reconciled, skipped or failed by the first run is a
no-op (or the same recorded failure) on the second. -/
theorem c4_idempotent (env : Env) (dirRaw : Option String) (s : Store)
    (st1 : RunState) (rep1 : SyncReport) (st2 : RunState) (rep2 : SyncReport)
    (hrowN : ((mlRows s).map (fun x => x.id)).Nodup)
    (hvarN : ((mlRows s).map (fun x => x.product_variant_id)).Nodup)
    (hids : ∀ it ∈ env.remote, ((varList it).map (fun w => toString w.id)).Nodup)
    (h1 : runSync env dirRaw s = .ok (st1, rep1))
    (h2 : runSync env dirRaw st1.store = .ok (st2, rep2)) :
    rep2.synced = 0 := by
  by_cases hd : decodeDirection dirRaw = "push"
  · rw [runSync_push env dirRaw s hd] at h1
    simp only [Except.ok.injEq, Prod.mk.injEq] at h1
    obtain ⟨hst1, hrep1⟩ := h1
    subst hst1
    rw [runSync_push env dirRaw _ hd] at h2
    simp only [Except.ok.injEq, Prod.mk.injEq] at h2
    obtain ⟨hst2, hrep2⟩ := h2
    subst hrep2
    show (runPush env (runPush env s).store).synced = 0
    rw [runPush_synced, loadListings_runPush, List.countP_map, List.countP_eq_zero]
    intro r hr
    have hfalse := push_second_run_unit env s r hr hrowN
    simp [Function.comp, hfalse]
  · cases hb : env.batchFail with
    | some e => rw [runSync_pull_fatal env dirRaw s e hd hb] at h1; cases h1
    | none =>
      rw [runSync_pull env dirRaw s hd hb] at h1
      simp only [Except.ok.injEq, Prod.mk.injEq] at h1
      obtain ⟨hst1, hrep1⟩ := h1
      subst hst1
      rw [runSync_pull env dirRaw _ hd hb] at h2
      simp only [Except.ok.injEq, Prod.mk.injEq] at h2
      obtain ⟨hst2, hrep2⟩ := h2
      subst hrep2
      show (runPull env (runPull env s).store).synced = 0
      rw [runPull_synced, loadListings_runPull, List.countP_map, List.countP_eq_zero]
      intro r hr
      have hfalse := pull_second_run_unit env s r hr hrowN hvarN hids
      simp [Function.comp, hfalse]

/-- Witness for C4: a pull run that self-heals and reconciles 10 → 4
(`synced = 1`), followed by a second pull run with no intervening change
(`synced = 0`). -/
theorem c4_witness :
    (runPull c4wEnv c4wStore).synced = 1 ∧
    runSync c4wEnv (some "pull") c4wStore =
      .ok (runPull c4wEnv c4wStore,
        mkReport "pull" (loadListings c4wStore).length (runPull c4wEnv c4wStore)) ∧
    runSync c4wEnv (some "pull") (runPull c4wEnv c4wStore).store =
      .ok (runPull c4wEnv (runPull c4wEnv c4wStore).store,
        mkReport "pull" (loadListings (runPull c4wEnv c4wStore).store).length
          (runPull c4wEnv (runPull c4wEnv c4wStore).store)) ∧
    (mkReport "pull" (loadListings (runPull c4wEnv c4wStore).store).length
      (runPull c4wEnv (runPull c4wEnv c4wStore).store)).synced = 0 := by
  refine ⟨rfl, rfl, rfl, ?_⟩
  exact c4_idempotent c4wEnv (some "pull") c4wStore
    (runPull c4wEnv c4wStore)
    (mkReport "pull" (loadListings c4wStore).length (runPull c4wEnv c4wStore))
    (runPull c4wEnv (runPull c4wEnv c4wStore).store)
    (mkReport "pull" (loadListings (runPull c4wEnv c4wStore).store).length
      (runPull c4wEnv (runPull c4wEnv c4wStore).store))
    (by decide) (by decide) (by decide) rfl rfl

end MuyCriollo
